import Mathlib

/-!
Verification of the hierarchical-data export engine of `export_utils.py`
(together with the export configuration it consumes from `config.py`).

The Python values handled by the engine are modelled by the inductive type
`Value` (None / bool / int / str / list / dict with insertion order);
floating-point scalars are outside this shallow embedding.  Python strings
are modelled as Lean `String` (a list of characters); the ASCII-only parts
of `str.lower` / `str.isalnum` that the engine exercises are modelled
exactly, and Unicode-specific classification beyond that is noted where it
would matter.  Filesystem interaction (directory creation, opening files
for writing) is modelled by an explicit environment `Env` supplying the
outcome of each call, and every function returns the list of filesystem
effects it performed alongside its Python result, with exceptions as an
explicit `Except` value.
-/

/- ## Python string primitives used by the engine -/

/-- Python `str.lower` on one character, for the ASCII range (the engine only
lowercases format tokens and filename extensions). -/
def pyLowerChar (c : Char) : Char :=
  if 'A' ≤ c ∧ c ≤ 'Z' then Char.ofNat (c.toNat + 32) else c

/-- Python `str.lower` (ASCII range). -/
def pyLower (s : String) : String :=
  ⟨s.data.map pyLowerChar⟩

/-- Python `str.endswith`. -/
def pyEndsWith (s suffix : String) : Bool :=
  suffix.data.isSuffixOf s.data

/-- Python `str.startswith`. -/
def pyStartsWith (s pre : String) : Bool :=
  pre.data.isPrefixOf s.data

/-- Python `str.lstrip('.')`: drop every leading dot. -/
def pyLstripDots (s : String) : String :=
  ⟨s.data.dropWhile (fun c => c = '.')⟩

/-- Join a list of strings (Python `''.join` / repeated `+=`). -/
def strJoin (l : List String) : String :=
  l.foldr (fun a b => a ++ b) ""

/-- Join with a separator (Python `sep.join`). -/
def strJoinSep (sep : String) : List String → String
  | [] => ""
  | [s] => s
  | s :: rest => s ++ sep ++ strJoinSep sep rest

/-- The character of one decimal digit. -/
def digitChar (n : Nat) : Char :=
  if n = 0 then '0' else if n = 1 then '1' else if n = 2 then '2' else if n = 3 then '3'
  else if n = 4 then '4' else if n = 5 then '5' else if n = 6 then '6' else if n = 7 then '7'
  else if n = 8 then '8' else '9'

/-- Decimal digits, with explicit fuel so the definition is structurally
recursive (any fuel above the digit count gives the same result). -/
def natDigitsAux : Nat → Nat → List Char
  | 0, _ => []
  | fuel + 1, n =>
    if n < 10 then [digitChar n]
    else natDigitsAux fuel (n / 10) ++ [digitChar (n % 10)]

/-- Decimal digits of a natural number, most significant first
(the core of Python `str(int)`). -/
def natDigits (n : Nat) : List Char :=
  natDigitsAux (n + 1) n

/-- Python `str` of an `int` (also the JSON rendering of an integer). -/
def intStr (n : Int) : String :=
  if n < 0 then ⟨'-' :: natDigits (-n).toNat⟩ else ⟨natDigits n.toNat⟩

/-- Python `str` of a nonnegative index (heading levels and the like). -/
def natStr (n : Nat) : String :=
  ⟨natDigits n⟩

/- ## The value model -/

/-- The Python values the export engine operates on: `None`, booleans,
integers, strings, lists and insertion-ordered dictionaries with string
keys.  (Floating-point scalars are outside this shallow embedding.) -/
inductive Value where
  | null
  | bool (b : Bool)
  | int (n : Int)
  | str (s : String)
  | list (items : List Value)
  | dict (entries : List (String × Value))

/-- Python `isinstance(v, dict)`. -/
def Value.isDict : Value → Bool
  | .dict _ => true
  | _ => false

/-- Keys of a record, in insertion order (Python `d.keys()`). -/
def dictKeys (r : List (String × Value)) : List String :=
  r.map (fun kv => kv.1)

/-- Python `d.get(k)` on an insertion-ordered dictionary ( `None` when
absent is modelled by `Option`). -/
def dictLookup (k : String) : List (String × Value) → Option Value
  | [] => none
  | (k', v) :: rest => if k' = k then some v else dictLookup k rest

/-- The shape check of the tabular formats in `export_data`:
`isinstance(data, list) and all(isinstance(item, dict) for item in data)`. -/
def isRecordList : Value → Bool
  | .list items => items.all Value.isDict
  | _ => false

/-- Entry lists of a list of values known to be dictionaries. -/
def recordsOf (items : List Value) : List (List (String × Value)) :=
  items.map (fun v => match v with
    | .dict es => es
    | _ => [])

/- ## Python `repr` / `str` of values -/

/-- Escape one character inside a Python string `repr` (ASCII range;
printable non-ASCII characters pass through, which matches CPython for the
characters the engine's own messages contain). -/
def pyReprEscapeChar (q : Char) (c : Char) : List Char :=
  if c = '\\' then ['\\', '\\']
  else if c = q then ['\\', q]
  else if c = '\n' then ['\\', 'n']
  else if c = '\r' then ['\\', 'r']
  else if c = '\t' then ['\\', 't']
  else [c]

/-- Python `repr` of a string: single quotes, switching to double quotes
when the text contains a single quote but no double quote. -/
def pyStrRepr (s : String) : String :=
  let hasSingle := s.data.any (fun c => c = '\'')
  let hasDouble := s.data.any (fun c => c = '"')
  let q := if hasSingle ∧ ¬hasDouble then '"' else '\''
  ⟨q :: (s.data.flatMap (pyReprEscapeChar q)) ++ [q]⟩

mutual

/-- Python `repr` of a value (used by `str` on containers and in the
`csv` module's error message). -/
def pyRepr : Value → String
  | .null => "None"
  | .bool true => "True"
  | .bool false => "False"
  | .int n => intStr n
  | .str s => pyStrRepr s
  | .list items => "[" ++ strJoinSep ", " (pyReprList items) ++ "]"
  | .dict es => "\x7b" ++ strJoinSep ", " (pyReprEntries es) ++ "\x7d"

/-- `repr` of each list element. -/
def pyReprList : List Value → List String
  | [] => []
  | v :: rest => pyRepr v :: pyReprList rest

/-- `repr` of each dictionary entry, `key: value`. -/
def pyReprEntries : List (String × Value) → List String
  | [] => []
  | (k, v) :: rest => (pyStrRepr k ++ ": " ++ pyRepr v) :: pyReprEntries rest

end

/-- Python `str` of a value, as used when a value is interpolated into
text output (`f"{value}"`). -/
def pyStr : Value → String
  | .str s => s
  | v => pyRepr v

/- ## Exceptions and filesystem effects -/

/-- The exceptions that flow through the engine: the engine's own
`ExportError` (message plus the `from e` chained cause), and the
underlying-library errors it may wrap. -/
inductive PyExc where
  | exportError (msg : String) (cause : Option PyExc)
  | valueError (msg : String)
  | osError (msg : String)

/-- Python `isinstance(e, ExportError)`. -/
def PyExc.isExportError : PyExc → Bool
  | .exportError _ _ => true
  | _ => false

/-- Python `str(e)` of an exception: its message. -/
def excStr : PyExc → String
  | .exportError m _ => m
  | .valueError m => m
  | .osError m => m

/-- What a codec hands to the underlying library to persist.  Textual
artifacts the claims inspect are modelled to the byte; artifacts produced
by an opaque third-party serializer (yaml, pickle, xlsxwriter, sqlite3,
minidom pretty-printing) are recorded as the data handed to that library. -/
inductive XmlNode where
  | elem (tag : String) (children : List XmlNode) (text : Option String)

inductive FileData where
  | text (content : String)
  | yamlData (v : Value)
  | pickleData (v : Value)
  | xlsxData (records : List (List (String × Value))) (sheet : String)
  | sqliteData (records : List (List (String × Value))) (table : String)
  | xmlData (root : XmlNode)

/-- Filesystem effects an export call performs, in order. -/
inductive Effect where
  | mkdir (dir : String)
  | create (path : String)
  | write (path : String) (data : FileData)

/-- Effects that touch a file (as opposed to only a directory). -/
def isFileEffect : Effect → Bool
  | .create _ => true
  | .write _ _ => true
  | .mkdir _ => false

/-- The filesystem environment of one call: the current directory (for
`os.path.abspath`) and the outcome of each `os.makedirs` / `open`. -/
structure Env where
  cwd : String
  mkdirError : String → Option PyExc
  openError : String → Option PyExc

/-- An environment in which every filesystem call succeeds. -/
def envOk : Env :=
  ⟨"/cwd", fun _ => none, fun _ => none⟩

/-- The export section of `config.py` (`ExportConfig`), with its default
values. -/
structure ExportConfig where
  output_dir : String := "./output"
  default_format : String := "json"
  max_file_size_mb : Nat := 100

/-- The configured defaults (`DEFAULT_CONFIG["export"]`). -/
def cfgDefault : ExportConfig :=
  { output_dir := "./output", default_format := "json", max_file_size_mb := 100 }

/- ## Path handling (`os.path`, posix flavor) -/

/-- Python `os.path.isabs`. -/
def isabs (p : String) : Bool :=
  pyStartsWith p "/"

/-- Python `os.path.join` restricted to two components. -/
def joinPath (a b : String) : String :=
  if isabs b then b
  else if a = "" then b
  else if pyEndsWith a "/" then a ++ b
  else a ++ "/" ++ b

/-- Index of the last occurrence of a character, `-1` when absent
(Python `str.rfind`). -/
def rfindChar (cs : List Char) (c : Char) : Int :=
  match (cs.reverse).findIdx? (fun x => x = c) with
  | some i => ((cs.length - 1 - i : Nat) : Int)
  | none => -1

/-- Python `os.path.splitext` (posix): split off the extension after the
last dot of the basename, unless every character before that dot in the
basename is itself a dot. -/
def splitext (p : String) : String × String :=
  let cs := p.data
  let sepIdx := rfindChar cs '/'
  let dotIdx := rfindChar cs '.'
  if dotIdx > sepIdx then
    let between := (cs.take dotIdx.toNat).drop (sepIdx + 1).toNat
    if between.any (fun c => c ≠ '.') then
      (⟨cs.take dotIdx.toNat⟩, ⟨cs.drop dotIdx.toNat⟩)
    else (p, "")
  else (p, "")

/-- Split a character list on `'/'` (helper of `normpath`). -/
def splitSlash : List Char → List (List Char)
  | [] => [[]]
  | c :: cs =>
    match splitSlash cs with
    | r :: rs => if c = '/' then [] :: r :: rs else (c :: r) :: rs
    | [] => [[c]]

/-- One step of `normpath`'s component normalization. -/
def normStep (initialSlashes : Nat) (acc : List (List Char)) (comp : List Char) :
    List (List Char) :=
  if comp = [] ∨ comp = ['.'] then acc
  else if comp ≠ ['.', '.'] ∨ (initialSlashes = 0 ∧ acc = []) ∨
      acc.getLast? = some ['.', '.'] then acc ++ [comp]
  else acc.dropLast

/-- Python `os.path.normpath` (posix). -/
def normpath (p : String) : String :=
  if p = "" then "."
  else
    let initialSlashes : Nat :=
      if pyStartsWith p "/" then
        if pyStartsWith p "//" ∧ ¬ pyStartsWith p "///" then 2 else 1
      else 0
    let comps := splitSlash p.data
    let newComps := comps.foldl (normStep initialSlashes) []
    let joined := (newComps.intersperse ['/']).flatten
    let out : List Char := List.replicate initialSlashes '/' ++ joined
    if out = [] then "." else ⟨out⟩

/-- Python `os.path.abspath`: join against the current directory, then
normalize. -/
def abspath (cwd p : String) : String :=
  if isabs p then normpath p else normpath (cwd ++ "/" ++ p)

/- ## The CSV codec (`export_to_csv`, via `csv.DictWriter`) -/

/-- Extension handling shared by every codec:
`if not filename.lower().endswith(exts): filename += append`. -/
def extFix (exts : List String) (append : String) (filename : String) : String :=
  if exts.any (fun e => pyEndsWith (pyLower filename) e) then filename
  else filename ++ append

/-- Rendering of one CSV cell by `csv.writer`: `None` (and the `restval`
default `''` for a missing key) renders empty, anything else via `str`. -/
def csvRenderCell : Option Value → String
  | none => ""
  | some .null => ""
  | some v => pyStr v

/-- QUOTE_MINIMAL: a field is quoted when it contains the delimiter, the
quote character, or a line break. -/
def csvNeedsQuote (s : String) : Bool :=
  s.data.any (fun c => c = ',' ∨ c = '"' ∨ c = '\n' ∨ c = '\r')

/-- Quote a field, doubling embedded quote characters. -/
def csvQuote (s : String) : String :=
  ⟨'"' :: s.data.flatMap (fun c => if c = '"' then ['"', '"'] else [c]) ++ ['"']⟩

/-- One CSV record as written by `csv.writer` (excel dialect): minimally
quoted fields joined by `,` and terminated by CRLF; a lone empty field is
quoted so the row is not invisible. -/
def csvRow (cells : List String) : String :=
  let fields := cells.map (fun s => if csvNeedsQuote s then csvQuote s else s)
  let fields := if fields = [""] then ["\"\""] else fields
  strJoinSep "," fields ++ "\r\n"

/-- The keys of a record that are absent from the fieldnames
(`rowdict.keys() - self.fieldnames`; the set difference is modelled in
record order, which coincides for the single-extra-key messages the
engine produces). -/
def wrongFields (fieldnames : List String) (r : List (String × Value)) : List String :=
  (dictKeys r).filter (fun k => ¬ fieldnames.contains k)

/-- `csv.DictWriter._dict_to_list` with `extrasaction='raise'` and
`restval=''`: reject extra keys, project the record positionally. -/
def dictToRow (fieldnames : List String) (r : List (String × Value)) :
    Except PyExc (List String) :=
  if wrongFields fieldnames r = [] then
    .ok (fieldnames.map (fun k => csvRenderCell (dictLookup k r)))
  else
    .error (.valueError ("dict contains fields not in fieldnames: " ++
      strJoinSep ", " ((wrongFields fieldnames r).map pyStrRepr)))

/-- `writer.writerows(data)`: rows are written one by one; on the first
failing record the text written so far stands and the error is raised. -/
def writeRows (fieldnames : List String) :
    List (List (String × Value)) → String × Option PyExc
  | [] => ("", none)
  | r :: rs =>
    match dictToRow fieldnames r with
    | .error e => ("", some e)
    | .ok cells =>
      let (rest, err) := writeRows fieldnames rs
      (csvRow cells ++ rest, err)

/-- `export_to_csv(data, filename, headers=None)`: fix the extension,
derive headers from the first record when not supplied, write header and
rows (an empty header set writes an empty file), wrapping any failure in
`ExportError`. -/
def export_to_csv (data : List (List (String × Value))) (filename : String)
    (headers : Option (List String)) (env : Env) : Except PyExc String × List Effect :=
  let fn := extFix [".csv"] ".csv" filename
  let hs : Option (List String) :=
    match headers, data with
    | none, r :: _ => some (dictKeys r)
    | h, _ => h
  match env.openError fn with
  | some e =>
    (.error (.exportError ("Failed to export data to CSV: " ++ excStr e) (some e)), [])
  | none =>
    match hs with
    | some (h0 :: hrest) =>
      let (body, errOpt) := writeRows (h0 :: hrest) data
      let content := csvRow (h0 :: hrest) ++ body
      match errOpt with
      | some e =>
        (.error (.exportError ("Failed to export data to CSV: " ++ excStr e) (some e)),
         [.create fn, .write fn (.text content)])
      | none => (.ok (abspath env.cwd fn), [.create fn, .write fn (.text content)])
    | _ => (.ok (abspath env.cwd fn), [.create fn, .write fn (.text "")])

/- ## The JSON codec (`export_to_json`, via `json.dump` / `json.load`) -/

/-- Lowercase hexadecimal digit. -/
def hexDigitChar (n : Nat) : Char :=
  if n < 10 then digitChar n
  else if n = 10 then 'a' else if n = 11 then 'b' else if n = 12 then 'c'
  else if n = 13 then 'd' else if n = 14 then 'e' else 'f'

/-- Four hexadecimal digits of a code unit (`\uXXXX`). -/
def hex4 (n : Nat) : List Char :=
  [hexDigitChar (n / 4096 % 16), hexDigitChar (n / 256 % 16),
   hexDigitChar (n / 16 % 16), hexDigitChar (n % 16)]

/-- `json.dump` with `ensure_ascii=True` (the default): escape one
character of a string. -/
def jsonEscapeChar (c : Char) : List Char :=
  if c = '"' then ['\\', '"']
  else if c = '\\' then ['\\', '\\']
  else if c = '\n' then ['\\', 'n']
  else if c = '\r' then ['\\', 'r']
  else if c = '\t' then ['\\', 't']
  else if c.toNat = 8 then ['\\', 'b']
  else if c.toNat = 12 then ['\\', 'f']
  else if 0x20 ≤ c.toNat ∧ c.toNat < 0x7F then [c]
  else if c.toNat < 0x10000 then '\\' :: 'u' :: hex4 c.toNat
  else
    '\\' :: 'u' :: hex4 (0xD800 + (c.toNat - 0x10000) / 0x400) ++
      ('\\' :: 'u' :: hex4 (0xDC00 + (c.toNat - 0x10000) % 0x400))

/-- Escaped body of a JSON string. -/
def jsonEncStrBody (cs : List Char) : List Char :=
  cs.flatMap jsonEscapeChar

/-- A JSON string literal. -/
def jsonEncStr (s : String) : List Char :=
  '"' :: jsonEncStrBody s.data ++ ['"']

/-- The whitespace `json.dump` emits after an opening bracket and before a
closing bracket: newline plus `indent=2` indentation when pretty, nothing
otherwise. -/
def indentWs (pretty : Bool) (level : Nat) : List Char :=
  if pretty then '\n' :: List.replicate (2 * level) ' ' else []

/-- The whitespace following an item separator comma: newline plus
indentation when pretty, a single space otherwise. -/
def sepWs (pretty : Bool) (level : Nat) : List Char :=
  if pretty then '\n' :: List.replicate (2 * level) ' ' else [' ']

mutual

/-- The exact character stream `json.dump(data, f, indent=2)` (pretty) or
`json.dump(data, f)` (compact) produces for a value. -/
def jsonEnc (pretty : Bool) (level : Nat) : Value → List Char
  | .null => "null".data
  | .bool true => "true".data
  | .bool false => "false".data
  | .int n => (intStr n).data
  | .str s => jsonEncStr s
  | .list [] => "[]".data
  | .list (v :: vs) =>
    '[' :: indentWs pretty (level + 1) ++ jsonEncElems pretty (level + 1) (v :: vs) ++
      indentWs pretty level ++ [']']
  | .dict [] => "\x7b\x7d".data
  | .dict (e :: es) =>
    '\x7b' :: indentWs pretty (level + 1) ++ jsonEncMembers pretty (level + 1) (e :: es) ++
      indentWs pretty level ++ ['\x7d']

/-- Array elements joined by the item separator. -/
def jsonEncElems (pretty : Bool) (level : Nat) : List Value → List Char
  | [] => []
  | [v] => jsonEnc pretty level v
  | v :: vs =>
    jsonEnc pretty level v ++ ',' :: sepWs pretty level ++ jsonEncElems pretty level vs

/-- Object members `"key": value` joined by the item separator. -/
def jsonEncMembers (pretty : Bool) (level : Nat) : List (String × Value) → List Char
  | [] => []
  | [(k, v)] => jsonEncStr k ++ ':' :: ' ' :: jsonEnc pretty level v
  | (k, v) :: es =>
    jsonEncStr k ++ ':' :: ' ' :: jsonEnc pretty level v ++ ',' :: sepWs pretty level ++
      jsonEncMembers pretty level es

end

/-- The artifact text `json.dump` writes. -/
def jsonDumps (pretty : Bool) (v : Value) : String :=
  ⟨jsonEnc pretty 0 v⟩

/-- JSON whitespace. -/
def isWsChar (c : Char) : Bool :=
  c = ' ' ∨ c = '\t' ∨ c = '\n' ∨ c = '\r'

/-- Skip JSON whitespace (the decoder's `_w(s, end).end()`). -/
def skipWs : List Char → List Char
  | [] => []
  | c :: cs => if isWsChar c then skipWs cs else c :: cs

/-- Value of a hexadecimal digit (`int(s, 16)` accepts both cases). -/
def hexVal (c : Char) : Option Nat :=
  if '0' ≤ c ∧ c ≤ '9' then some (c.toNat - 48)
  else if 'a' ≤ c ∧ c ≤ 'f' then some (c.toNat - 87)
  else if 'A' ≤ c ∧ c ≤ 'F' then some (c.toNat - 55)
  else none

/-- Four hexadecimal digits. -/
def hexQuad (a b c d : Char) : Option Nat := do
  let x ← hexVal a
  let y ← hexVal b
  let z ← hexVal c
  let w ← hexVal d
  return ((x * 16 + y) * 16 + z) * 16 + w

/-- The one-character escapes of `json.decoder.BACKSLASH`. -/
def simpleEsc (e : Char) : Option Char :=
  if e = '"' then some '"'
  else if e = '\\' then some '\\'
  else if e = '/' then some '/'
  else if e = 'b' then some (Char.ofNat 8)
  else if e = 'f' then some (Char.ofNat 12)
  else if e = 'n' then some '\n'
  else if e = 'r' then some '\r'
  else if e = 't' then some '\t'
  else none

/-- One step of `json.decoder.py_scanstring` after the opening quote:
a closing quote, a literal character (control characters rejected,
`strict=True`), a one-character escape, or `\uXXXX` with surrogate-pair
recombination; `rec` continues on the remaining input.  A lone surrogate,
which CPython would admit into a `str`, has no `Char` counterpart and is
rejected; the encoder never produces one. -/
def parseStrStep (rec : List Char → Option (List Char × List Char)) :
    List Char → Option (List Char × List Char)
  | [] => none
  | c :: cs =>
    if c = '"' then some ([], cs)
    else if c = '\\' then
      match cs with
      | [] => none
      | e :: rest =>
        if e = 'u' then
          match rest with
          | a :: b :: c1 :: d :: rest2 =>
            (hexQuad a b c1 d).bind (fun u =>
              if u < 0xD800 ∨ 0xE000 ≤ u then
                (rec rest2).map (fun p => (Char.ofNat u :: p.1, p.2))
              else if u < 0xDC00 then
                match rest2 with
                | s1 :: s2 :: a2 :: b2 :: c2 :: d2 :: rest3 =>
                  if s1 = '\\' ∧ s2 = 'u' then
                    (hexQuad a2 b2 c2 d2).bind (fun u2 =>
                      if 0xDC00 ≤ u2 ∧ u2 < 0xE000 then
                        (rec rest3).map (fun p =>
                          (Char.ofNat (0x10000 + (u - 0xD800) * 0x400 + (u2 - 0xDC00)) :: p.1,
                            p.2))
                      else none)
                  else none
                | _ => none
              else none)
          | _ => none
        else
          (simpleEsc e).bind (fun c0 => (rec rest).map (fun p => (c0 :: p.1, p.2)))
    else if c.toNat < 0x20 then none
    else (rec cs).map (fun p => (c :: p.1, p.2))

/-- The scanner iterated, with fuel bounding the number of decoded
characters (an artifact of the embedding; callers supply ample fuel). -/
def parseStrF : Nat → List Char → Option (List Char × List Char)
  | 0, _ => none
  | fuel + 1, cs => parseStrStep (parseStrF fuel) cs

/-- `py_scanstring` after the opening quote. -/
def parseStr (cs : List Char) : Option (List Char × List Char) :=
  parseStrF (cs.length + 1) cs

/-- Numeric value of a run of decimal digits. -/
def digitsVal (ds : List Char) : Nat :=
  ds.foldl (fun a c => a * 10 + (c.toNat - 48)) 0

/-- The integer production of the decoder's NUMBER_RE: optional sign,
digits without a superfluous leading zero.  A fraction or exponent
continuation denotes a float, which is outside this embedding, so the
parser rejects it. -/
def parseNatTok (cs : List Char) : Option (Nat × List Char) :=
  let ds := cs.takeWhile Char.isDigit
  let rest := cs.dropWhile Char.isDigit
  if ds.isEmpty then none
  else if ds.head? = some '0' ∧ ds ≠ ['0'] then none
  else
    match rest with
    | [] => some (digitsVal ds, [])
    | c :: _ => if c = '.' ∨ c = 'e' ∨ c = 'E' then none else some (digitsVal ds, rest)

/-- A signed integer token. -/
def parseIntTok : List Char → Option (Int × List Char)
  | [] => none
  | c :: cs =>
    if c = '-' then (parseNatTok cs).map (fun p => (-(p.1 : Int), p.2))
    else (parseNatTok (c :: cs)).map (fun p => ((p.1 : Int), p.2))

mutual

/-- `json.load`'s scanner: skip whitespace and dispatch on the next
character.  The fuel argument only bounds nesting depth; `jsonLoads`
supplies more than any input can consume. -/
def parseVal : Nat → List Char → Option (Value × List Char)
  | 0, _ => none
  | fuel + 1, cs =>
    match skipWs cs with
    | [] => none
    | c :: rest =>
      if c = '\x7b' then parseObj fuel (skipWs rest)
      else if c = '[' then parseArr fuel (skipWs rest)
      else if c = '"' then (parseStr rest).map (fun p => (Value.str ⟨p.1⟩, p.2))
      else if c = 't' then
        match rest with
        | 'r' :: 'u' :: 'e' :: r => some (.bool true, r)
        | _ => none
      else if c = 'f' then
        match rest with
        | 'a' :: 'l' :: 's' :: 'e' :: r => some (.bool false, r)
        | _ => none
      else if c = 'n' then
        match rest with
        | 'u' :: 'l' :: 'l' :: r => some (.null, r)
        | _ => none
      else (parseIntTok (c :: rest)).map (fun p => (Value.int p.1, p.2))

/-- After `{` and whitespace: an empty object or its members. -/
def parseObj : Nat → List Char → Option (Value × List Char)
  | _, [] => none
  | 0, _ => none
  | fuel + 1, c :: cs =>
    if c = '\x7d' then some (.dict [], cs)
    else (parseMembers fuel (c :: cs)).map (fun p => (Value.dict p.1, p.2))

/-- After `[` and whitespace: an empty array or its elements. -/
def parseArr : Nat → List Char → Option (Value × List Char)
  | _, [] => none
  | 0, _ => none
  | fuel + 1, c :: cs =>
    if c = ']' then some (.list [], cs)
    else (parseElems fuel (c :: cs)).map (fun p => (Value.list p.1, p.2))

/-- One `"key": value` member, then either `, members` or `}`. -/
def parseMembers : Nat → List Char → Option (List (String × Value) × List Char)
  | 0, _ => none
  | fuel + 1, cs =>
    match cs with
    | '"' :: rest =>
      (match parseStr rest with
       | none => none
       | some (k, r1) =>
         match skipWs r1 with
         | ':' :: r2 =>
           (match parseVal fuel r2 with
            | none => none
            | some (v, r3) =>
              match skipWs r3 with
              | [] => none
              | c :: r4 =>
                if c = ',' then
                  match skipWs r4 with
                  | '"' :: r5 =>
                    (parseMembers fuel ('"' :: r5)).map
                      (fun p => (((⟨k⟩ : String), v) :: p.1, p.2))
                  | _ => none
                else if c = '\x7d' then some ([((⟨k⟩ : String), v)], r4)
                else none)
         | _ => none)
    | _ => none

/-- One array element, then either `, elements` or `]`. -/
def parseElems : Nat → List Char → Option (List Value × List Char)
  | 0, _ => none
  | fuel + 1, cs =>
    match parseVal fuel cs with
    | none => none
    | some (v, r1) =>
      match skipWs r1 with
      | [] => none
      | c :: r2 =>
        if c = ',' then (parseElems fuel r2).map (fun p => (v :: p.1, p.2))
        else if c = ']' then some ([v], r2)
        else none

end

/-- `json.load`: parse one value and require only whitespace to remain
("Extra data" otherwise).  The fuel `2·length + 2` exceeds what parsing
any artifact can consume. -/
def jsonLoads (s : String) : Option Value :=
  match parseVal (2 * s.data.length + 2) s.data with
  | some (v, rest) => if skipWs rest = [] then some v else none
  | none => none

/-- `export_to_json(data, filename, pretty=True)`. -/
def export_to_json (data : Value) (filename : String) (pretty : Bool) (env : Env) :
    Except PyExc String × List Effect :=
  let fn := extFix [".json"] ".json" filename
  match env.openError fn with
  | some e =>
    (.error (.exportError ("Failed to export data to JSON: " ++ excStr e) (some e)), [])
  | none =>
    (.ok (abspath env.cwd fn), [.create fn, .write fn (.text (jsonDumps pretty data))])

/- ## The XML codec (`export_to_xml`) -/

/-- Element-name sanitization: keep alphanumerics and underscore
(`c.isalnum() or c == '_'`, modelled for the ASCII range), falling back to
`"item"` when nothing remains. -/
def sanitizeName (k : String) : String :=
  let cleaned := k.data.filter (fun c => c.isAlphanum ∨ c = '_')
  if cleaned.isEmpty then "item" else ⟨cleaned⟩

mutual

/-- `dict_to_xml`: one child element per entry; dictionaries recurse,
lists wrap each item in an `item` element, scalars become text content. -/
def dict_to_xml : List (String × Value) → List XmlNode
  | [] => []
  | (k, v) :: rest =>
    (match v with
     | .dict es => XmlNode.elem (sanitizeName k) (dict_to_xml es) none
     | .list items => XmlNode.elem (sanitizeName k) (xmlListItems items) none
     | sv => XmlNode.elem (sanitizeName k) [] (some (pyStr sv))) :: dict_to_xml rest

/-- The `item` wrapper elements of a list value. -/
def xmlListItems : List Value → List XmlNode
  | [] => []
  | item :: rest =>
    (match item with
     | .dict es => XmlNode.elem "item" (dict_to_xml es) none
     | it => XmlNode.elem "item" [] (some (pyStr it))) :: xmlListItems rest

end

/-- `export_to_xml(data, filename, root_element="data")`; the tree handed
to `minidom` for pretty-printing is recorded as the artifact. -/
def export_to_xml (data : List (String × Value)) (filename root_element : String)
    (env : Env) : Except PyExc String × List Effect :=
  let fn := extFix [".xml"] ".xml" filename
  match env.openError fn with
  | some e =>
    (.error (.exportError ("Failed to export data to XML: " ++ excStr e) (some e)), [])
  | none =>
    (.ok (abspath env.cwd fn),
     [.create fn, .write fn (.xmlData (XmlNode.elem root_element (dict_to_xml data) none))])

/- ## The Markdown codec (`export_to_markdown`) -/

mutual

/-- `dict_to_markdown(data, level=1)`: a heading per entry, then the
rendered value. -/
def dict_to_markdown : List (String × Value) → Nat → String
  | [], _ => ""
  | (k, v) :: rest, level =>
    (⟨List.replicate (level + 1) '#'⟩ : String) ++ " " ++ k ++ "\n\n" ++
      markdownValue v level ++ dict_to_markdown rest level

/-- The body under one heading: dictionaries recurse one level deeper,
lists are rendered per element followed by a blank line, scalars are
plain text. -/
def markdownValue : Value → Nat → String
  | .dict es, level => dict_to_markdown es (level + 1)
  | .list items, level => markdownSeq items level ++ "\n"
  | v, _ => pyStr v ++ "\n\n"

/-- Per-element rendering of a list: a dictionary item becomes a nested
section at the next level, any other item its own bullet line. -/
def markdownSeq : List Value → Nat → String
  | [], _ => ""
  | item :: rest, level =>
    (match item with
     | .dict es => dict_to_markdown es (level + 1)
     | it => "- " ++ pyStr it ++ "\n") ++ markdownSeq rest level

end

/-- `export_to_markdown(data, filename, title="Exported Data")`. -/
def export_to_markdown (data : List (String × Value)) (filename title : String)
    (env : Env) : Except PyExc String × List Effect :=
  let fn := extFix [".md"] ".md" filename
  match env.openError fn with
  | some e =>
    (.error (.exportError ("Failed to export data to Markdown: " ++ excStr e) (some e)), [])
  | none =>
    (.ok (abspath env.cwd fn),
     [.create fn, .write fn (.text ("# " ++ title ++ "\n\n" ++ dict_to_markdown data 1))])

/- ## The HTML codec (`export_to_html`) -/

/-- One table cell: `item.get(header, "")` interpolated into `<td>`. -/
def htmlCell (item : List (String × Value)) (h : String) : String :=
  match dictLookup h item with
  | some v => pyStr v
  | none => ""

/-- Entries of a value known to be a dictionary. -/
def entriesOf : Value → List (String × Value)
  | .dict es => es
  | _ => []

mutual

/-- `dict_to_html(data, level=1)`: a heading per entry, then the rendered
value. -/
def dict_to_html : List (String × Value) → Nat → String
  | [], _ => ""
  | (k, v) :: rest, level =>
    "<h" ++ natStr (level + 1) ++ ">" ++ k ++ "</h" ++ natStr (level + 1) ++ ">\n" ++
      htmlValue v level ++ dict_to_html rest level

/-- The body under one heading.  For a list: when every item is a
dictionary, a table keyed on the first item's key order is emitted — but
only if the list is non-empty — otherwise an unordered list; note that an
empty list satisfies `all(...)` and so produces no output at all. -/
def htmlValue : Value → Nat → String
  | .dict es, level => dict_to_html es (level + 1)
  | .list items, _level =>
    if items.all Value.isDict then
      match items with
      | [] => ""
      | first :: _ =>
        let headers := dictKeys (entriesOf first)
        "<table>\n<tr>\n" ++ strJoin (headers.map (fun h => "<th>" ++ h ++ "</th>\n")) ++
          "</tr>\n" ++
          strJoin (items.map (fun item =>
            "<tr>\n" ++ strJoin (headers.map (fun h =>
              "<td>" ++ htmlCell (entriesOf item) h ++ "</td>\n")) ++ "</tr>\n")) ++
          "</table>\n"
    else
      "<ul>\n" ++ strJoin (items.map (fun item => "<li>" ++ pyStr item ++ "</li>\n")) ++
        "</ul>\n"
  | v, _ => "<p>" ++ pyStr v ++ "</p>\n"

end

/-- The fixed HTML prologue (the f-string's doubled braces render as the
single braces reproduced here). -/
def htmlHeader (title : String) : String :=
  "<!DOCTYPE html>\n<html>\n<head>\n    <title>" ++ title ++ "</title>\n    <style>\n" ++
  "        body \x7b font-family: Arial, sans-serif; line-height: 1.6; margin: 0; padding: 20px; color: #333; \x7d\n" ++
  "        h1 \x7b color: #2c3e50; border-bottom: 1px solid #eee; padding-bottom: 10px; \x7d\n" ++
  "        h2, h3, h4 \x7b color: #2c3e50; margin-top: 20px; \x7d\n" ++
  "        table \x7b border-collapse: collapse; width: 100%; margin-bottom: 20px; \x7d\n" ++
  "        th, td \x7b text-align: left; padding: 12px; \x7d\n" ++
  "        th \x7b background-color: #f2f2f2; \x7d\n" ++
  "        tr:nth-child(even) \x7b background-color: #f9f9f9; \x7d\n" ++
  "        .container \x7b max-width: 1200px; margin: 0 auto; \x7d\n" ++
  "    </style>\n</head>\n<body>\n    <div class=\"container\">\n        <h1>" ++ title ++
  "</h1>\n"

/-- The fixed HTML epilogue. -/
def htmlFooter : String :=
  "    </div>\n</body>\n</html>\n"

/-- `export_to_html(data, filename, title="Exported Data")`. -/
def export_to_html (data : List (String × Value)) (filename title : String)
    (env : Env) : Except PyExc String × List Effect :=
  let fn := extFix [".html"] ".html" filename
  match env.openError fn with
  | some e =>
    (.error (.exportError ("Failed to export data to HTML: " ++ excStr e) (some e)), [])
  | none =>
    (.ok (abspath env.cwd fn),
     [.create fn, .write fn (.text (htmlHeader title ++ dict_to_html data 1 ++ htmlFooter))])

/- ## The opaque codecs (`export_to_yaml` / `export_to_pickle`) and the
tabular library codecs (`export_to_excel` / `export_to_sqlite`) -/

/-- `export_to_yaml(data, filename)`; the value handed to `yaml.dump` is
recorded as the artifact. -/
def export_to_yaml (data : Value) (filename : String) (env : Env) :
    Except PyExc String × List Effect :=
  let fn := extFix [".yaml", ".yml"] ".yaml" filename
  match env.openError fn with
  | some e =>
    (.error (.exportError ("Failed to export data to YAML: " ++ excStr e) (some e)), [])
  | none =>
    (.ok (abspath env.cwd fn), [.create fn, .write fn (.yamlData data)])

/-- `export_to_pickle(data, filename)`. -/
def export_to_pickle (data : Value) (filename : String) (env : Env) :
    Except PyExc String × List Effect :=
  let fn := extFix [".pkl", ".pickle"] ".pkl" filename
  match env.openError fn with
  | some e =>
    (.error (.exportError ("Failed to export data to pickle: " ++ excStr e) (some e)), [])
  | none =>
    (.ok (abspath env.cwd fn), [.create fn, .write fn (.pickleData data)])

/-- `export_to_excel(data, filename, sheet_name="Data")`; the frame handed
to `xlsxwriter` is recorded as the artifact. -/
def export_to_excel (data : List (List (String × Value))) (filename sheet_name : String)
    (env : Env) : Except PyExc String × List Effect :=
  let fn := extFix [".xlsx"] ".xlsx" filename
  match env.openError fn with
  | some e =>
    (.error (.exportError ("Failed to export data to Excel: " ++ excStr e) (some e)), [])
  | none =>
    (.ok (abspath env.cwd fn), [.create fn, .write fn (.xlsxData data sheet_name)])

/-- `export_to_sqlite(data, filename, table_name="data")`. -/
def export_to_sqlite (data : List (List (String × Value))) (filename table_name : String)
    (env : Env) : Except PyExc String × List Effect :=
  let fn := extFix [".db"] ".db" filename
  match env.openError fn with
  | some e =>
    (.error (.exportError ("Failed to export data to SQLite: " ++ excStr e) (some e)), [])
  | none =>
    (.ok (abspath env.cwd fn), [.create fn, .write fn (.sqliteData data table_name)])

/-- `get_supported_formats()`. -/
def get_supported_formats : List String :=
  ["csv", "json", "xml", "markdown", "html", "yaml", "excel", "sqlite", "pickle"]

/- ## The dispatcher (`export_data`) -/

/-- Resolution of the effective format token: an explicitly supplied
`format` argument is used verbatim; otherwise the filename's extension,
lowercased and with leading dots stripped; otherwise the configured
default. -/
def resolveFormat (format : Option String) (filename : String) (cfg : ExportConfig) :
    String :=
  match format with
  | some f => f
  | none =>
    let ext := (splitext filename).2
    if ext ≠ "" then pyLstripDots (pyLower ext)
    else cfg.default_format

/-- Items of a value known to be a list. -/
def itemsOf : Value → List Value
  | .list items => items
  | _ => []

/-- The body of `export_data`'s `try` block: shape checks and dispatch on
the resolved format token. -/
def dispatchFormat (data : Value) (fn : String) (fmt : String) (env : Env) :
    Except PyExc String × List Effect :=
  if fmt = "csv" then
    if isRecordList data then
      export_to_csv (recordsOf (itemsOf data)) fn none env
    else (.error (.exportError "CSV export requires a list of dictionaries" none), [])
  else if fmt = "json" then export_to_json data fn true env
  else if fmt = "xml" then
    match data with
    | .dict es => export_to_xml es fn "data" env
    | _ => (.error (.exportError "XML export requires a dictionary" none), [])
  else if fmt = "md" ∨ fmt = "markdown" then
    match data with
    | .dict es => export_to_markdown es fn "Exported Data" env
    | _ => (.error (.exportError "Markdown export requires a dictionary" none), [])
  else if fmt = "html" then
    match data with
    | .dict es => export_to_html es fn "Exported Data" env
    | _ => (.error (.exportError "HTML export requires a dictionary" none), [])
  else if fmt = "yaml" ∨ fmt = "yml" then export_to_yaml data fn env
  else if fmt = "xlsx" ∨ fmt = "excel" then
    if isRecordList data then
      export_to_excel (recordsOf (itemsOf data)) fn "Data" env
    else (.error (.exportError "Excel export requires a list of dictionaries" none), [])
  else if fmt = "db" ∨ fmt = "sqlite" then
    if isRecordList data then
      export_to_sqlite (recordsOf (itemsOf data)) fn "data" env
    else (.error (.exportError "SQLite export requires a list of dictionaries" none), [])
  else if fmt = "pkl" ∨ fmt = "pickle" then export_to_pickle data fn env
  else (.error (.exportError ("Unsupported export format: " ++ fmt) none), [])

/-- `except ExportError: raise` / `except Exception as e: raise
ExportError(...) from e` around the dispatch. -/
def wrapResult (fmt : String) : Except PyExc String → Except PyExc String
  | .ok p => .ok p
  | .error e =>
    if e.isExportError then .error e
    else .error (.exportError ("Failed to export data to " ++ fmt ++ ": " ++ excStr e)
      (some e))

/-- `export_data(data, filename, format=None)`: resolve the format, then —
outside the `try` block, so that a failure here escapes as the raw
exception — ensure the output directory and join the filename under it,
then dispatch and wrap. -/
def export_data (data : Value) (filename : String) (format : Option String)
    (cfg : ExportConfig) (env : Env) : Except PyExc String × List Effect :=
  let fmt := resolveFormat format filename cfg
  if cfg.output_dir ≠ "" ∧ ¬ isabs filename then
    match env.mkdirError cfg.output_dir with
    | some e => (.error e, [])
    | none =>
      let fn := joinPath cfg.output_dir filename
      let (res, effs) := dispatchFormat data fn fmt env
      (wrapResult fmt res, Effect.mkdir cfg.output_dir :: effs)
  else
    let (res, effs) := dispatchFormat data filename fmt env
    (wrapResult fmt res, effs)

/- ## Definitions used only to state and prove the theorems -/

/-- Whitespace-only character runs (what `indentWs` / `sepWs` produce). -/
def AllWs (cs : List Char) : Prop :=
  ∀ c ∈ cs, isWsChar c = true

/-- A continuation that cannot extend a numeric token. -/
def delimOk : List Char → Prop
  | [] => True
  | c :: _ => c.isDigit = false ∧ c ≠ '.' ∧ c ≠ 'e' ∧ c ≠ 'E'

/-- Characters an encoded value can start with. -/
def goodHeadChars : List Char :=
  ['\x7b', '[', '"', 't', 'f', 'n', '-', '0', '1', '2', '3', '4', '5', '6', '7', '8', '9']

/-- Heads an encoded value can start with. -/
def goodHead : List Char → Prop
  | [] => False
  | c :: _ => c ∈ goodHeadChars

mutual

/-- Fuel sufficient for `parseVal` to consume an encoded value. -/
def need : Value → Nat
  | .dict es => 3 + needM es
  | .list xs => 3 + needE xs
  | _ => 1

/-- Fuel sufficient for `parseMembers`. -/
def needM : List (String × Value) → Nat
  | [] => 0
  | (_, v) :: es => 1 + need v + needM es

/-- Fuel sufficient for `parseElems`. -/
def needE : List Value → Nat
  | [] => 0
  | v :: vs => 1 + need v + needE vs

end

/-- Rendering of one sequence element in Markdown (the body of the
per-item branch of `dict_to_markdown`). -/
def markdownItem (level : Nat) (item : Value) : String :=
  match item with
  | .dict es => dict_to_markdown es (level + 1)
  | it => "- " ++ pyStr it ++ "\n"

/- ## Theorems -/

/- ### String and list plumbing -/

theorem strData_append (a b : String) : (a ++ b).data = a.data ++ b.data := by
  cases a; cases b; rfl

theorem strMk_data (s : String) : (⟨s.data⟩ : String) = s := by
  cases s; rfl

theorem strMk_inj {a b : List Char} (h : (⟨a⟩ : String) = (⟨b⟩ : String)) : a = b := by
  injection h

theorem skipWs_cons_not {c : Char} (cs : List Char) (h : isWsChar c = false) :
    skipWs (c :: cs) = c :: cs := by
  simp [skipWs, h]

theorem skipWs_append_ws {ws : List Char} (cs : List Char) (h : AllWs ws) :
    skipWs (ws ++ cs) = skipWs cs := by
  induction ws with
  | nil => rfl
  | cons c rest ih =>
    have hc : isWsChar c = true := h c (by simp)
    have hrest : AllWs rest := fun x hx => h x (by simp [hx])
    simp [skipWs, hc, ih hrest]

theorem allWs_indentWs (pretty : Bool) (level : Nat) : AllWs (indentWs pretty level) := by
  intro c hc
  cases pretty with
  | false => simp [indentWs] at hc
  | true =>
    have he : indentWs true level = '\n' :: List.replicate (2 * level) ' ' := rfl
    rw [he] at hc
    rcases List.mem_cons.mp hc with h | h
    · rw [h]; decide
    · rw [List.eq_of_mem_replicate h]; decide

theorem allWs_sepWs (pretty : Bool) (level : Nat) : AllWs (sepWs pretty level) := by
  intro c hc
  cases pretty with
  | false =>
    have he : sepWs false level = [' '] := rfl
    rw [he] at hc
    simp at hc
    rw [hc]; decide
  | true =>
    have he : sepWs true level = '\n' :: List.replicate (2 * level) ' ' := rfl
    rw [he] at hc
    rcases List.mem_cons.mp hc with h | h
    · rw [h]; decide
    · rw [List.eq_of_mem_replicate h]; decide

theorem takeWhile_append_stop {p : Char → Bool} (xs ys : List Char)
    (hx : ∀ x ∈ xs, p x = true)
    (hy : ys = [] ∨ ∃ c cs, ys = c :: cs ∧ p c = false) :
    (xs ++ ys).takeWhile p = xs ∧ (xs ++ ys).dropWhile p = ys := by
  induction xs with
  | nil =>
    rcases hy with h | ⟨c, cs, hcs, hc⟩
    · simp [h]
    · simp [hcs, List.takeWhile, List.dropWhile, hc]
  | cons x rest ih =>
    have hxx : p x = true := hx x (by simp)
    have hrest : ∀ x ∈ rest, p x = true := fun a ha => hx a (by simp [ha])
    have := ih hrest
    simp [List.takeWhile, List.dropWhile, hxx, this.1, this.2]

/- ### Decimal digits -/

theorem digitChar_mem (n : Nat) :
    digitChar n ∈ ['0', '1', '2', '3', '4', '5', '6', '7', '8', '9'] := by
  unfold digitChar
  split_ifs <;> decide

theorem mem_digitChars_isDigit :
    ∀ c ∈ ['0', '1', '2', '3', '4', '5', '6', '7', '8', '9'], c.isDigit = true := by
  decide

theorem digitChar_isDigit (n : Nat) : (digitChar n).isDigit = true :=
  mem_digitChars_isDigit _ (digitChar_mem n)

theorem natDigitsAux_ne_nil (fuel n : Nat) (h : n < fuel) : natDigitsAux fuel n ≠ [] := by
  cases fuel with
  | zero => omega
  | succ f =>
    unfold natDigitsAux
    split
    · simp
    · simp

theorem natDigits_ne_nil (n : Nat) : natDigits n ≠ [] :=
  natDigitsAux_ne_nil (n + 1) n (by omega)

theorem natDigitsAux_all_mem (fuel : Nat) :
    ∀ n, n < fuel →
      ∀ c ∈ natDigitsAux fuel n, c ∈ ['0', '1', '2', '3', '4', '5', '6', '7', '8', '9'] := by
  induction fuel with
  | zero => omega
  | succ f ih =>
    intro n hn c hc
    unfold natDigitsAux at hc
    split at hc
    · simp only [List.mem_singleton] at hc
      subst hc
      exact digitChar_mem n
    · next h10 =>
      rcases List.mem_append.mp hc with h | h
      · exact ih (n / 10) (by omega) c h
      · simp only [List.mem_singleton] at h
        subst h
        exact digitChar_mem (n % 10)

theorem natDigits_all_mem (n : Nat) :
    ∀ c ∈ natDigits n, c ∈ ['0', '1', '2', '3', '4', '5', '6', '7', '8', '9'] :=
  natDigitsAux_all_mem (n + 1) n (by omega)

theorem natDigits_all_digits (n : Nat) : ∀ c ∈ natDigits n, c.isDigit = true := by
  intro c hc
  exact mem_digitChars_isDigit c (natDigits_all_mem n c hc)

theorem digitChar_toNat (n : Nat) (h : n < 10) : (digitChar n).toNat = 48 + n := by
  interval_cases n <;> decide

theorem digitsVal_append_one (ds : List Char) (c : Char) :
    digitsVal (ds ++ [c]) = 10 * digitsVal ds + (c.toNat - 48) := by
  simp [digitsVal, List.foldl_append]
  omega

theorem digitsVal_natDigitsAux (fuel : Nat) :
    ∀ n, n < fuel → digitsVal (natDigitsAux fuel n) = n := by
  induction fuel with
  | zero => omega
  | succ f ih =>
    intro n hn
    unfold natDigitsAux
    split
    · next h =>
      simp [digitsVal, digitChar_toNat n h]
    · next h =>
      rw [digitsVal_append_one, ih (n / 10) (by omega),
        digitChar_toNat (n % 10) (by omega)]
      omega

theorem digitsVal_natDigits (n : Nat) : digitsVal (natDigits n) = n :=
  digitsVal_natDigitsAux (n + 1) n (by omega)

theorem natDigitsAux_head_ne_zero (fuel : Nat) :
    ∀ n, n < fuel → n ≠ 0 → (natDigitsAux fuel n).head? ≠ some '0' := by
  induction fuel with
  | zero => omega
  | succ f ih =>
    intro n hn h0
    unfold natDigitsAux
    split
    · next h =>
      have h10 : (digitChar n).toNat = 48 + n := digitChar_toNat n h
      simp only [List.head?]
      intro hcon
      simp at hcon
      rw [hcon] at h10
      simp at h10
      omega
    · next h =>
      have hne := natDigitsAux_ne_nil f (n / 10) (by omega)
      have := ih (n / 10) (by omega) (by omega)
      cases hnd : natDigitsAux f (n / 10) with
      | nil => exact absurd hnd hne
      | cons a l =>
        rw [hnd] at this
        simp at this ⊢
        exact this

theorem natDigits_head_ne_zero (n : Nat) (h : n ≠ 0) : (natDigits n).head? ≠ some '0' :=
  natDigitsAux_head_ne_zero (n + 1) n (by omega) h

theorem natDigits_zero : natDigits 0 = ['0'] := by decide



theorem hexDigitChar_hexVal (d : Nat) (h : d < 16) : hexVal (hexDigitChar d) = some d := by
  interval_cases d <;> decide

theorem hexQuad_hex4 (m : Nat) (h : m < 65536) :
    hexQuad (hexDigitChar (m / 4096 % 16)) (hexDigitChar (m / 256 % 16))
      (hexDigitChar (m / 16 % 16)) (hexDigitChar (m % 16)) = some m := by
  rw [hexQuad, hexDigitChar_hexVal (m / 4096 % 16) (by omega),
    hexDigitChar_hexVal (m / 256 % 16) (by omega),
    hexDigitChar_hexVal (m / 16 % 16) (by omega),
    hexDigitChar_hexVal (m % 16) (by omega)]
  simp only [Option.bind_eq_bind, Option.some_bind, Option.pure_def, Option.some.injEq]
  omega

theorem char_valid_ranges (c : Char) :
    c.toNat < 0xD800 ∨ (0xE000 ≤ c.toNat ∧ c.toNat < 0x110000) := by
  have h := c.valid
  rcases h with h | ⟨h1, h2⟩
  · left; exact h
  · right; exact ⟨h1, h2⟩

theorem parseStrF_quote (fuel : Nat) (rest : List Char) :
    parseStrF (fuel + 1) ('"' :: rest) = some ([], rest) := by
  simp [parseStrF, parseStrStep]

theorem parseStrF_cons (fuel : Nat) (c : Char) (cs : List Char) (h1 : c ≠ '"')
    (h2 : c ≠ '\\') (h3 : ¬ (c.toNat < 0x20)) :
    parseStrF (fuel + 1) (c :: cs) = (parseStrF fuel cs).map (fun p => (c :: p.1, p.2)) := by
  simp only [parseStrF, parseStrStep, if_neg h1, if_neg h2, if_neg h3]

theorem parseStrF_simpleEsc (fuel : Nat) (e c0 : Char) (cs : List Char) (hu : e ≠ 'u')
    (hs : simpleEsc e = some c0) :
    parseStrF (fuel + 1) ('\\' :: e :: cs) =
      (parseStrF fuel cs).map (fun p => (c0 :: p.1, p.2)) := by
  simp only [parseStrF, parseStrStep, if_neg (show ('\\' : Char) ≠ '"' by decide),
    if_pos (show ('\\' : Char) = '\\' from rfl), if_neg hu, hs, Option.some_bind, if_true]

theorem parseStrF_uEsc (fuel : Nat) (x1 x2 x3 x4 : Char) (cs : List Char) (u : Nat)
    (hq : hexQuad x1 x2 x3 x4 = some u) (hr : u < 0xD800 ∨ 0xE000 ≤ u) :
    parseStrF (fuel + 1) ('\\' :: 'u' :: x1 :: x2 :: x3 :: x4 :: cs) =
      (parseStrF fuel cs).map (fun p => (Char.ofNat u :: p.1, p.2)) := by
  simp only [parseStrF, parseStrStep, if_neg (show ('\\' : Char) ≠ '"' by decide),
    if_pos (show ('\\' : Char) = '\\' from rfl), if_pos (show ('u' : Char) = 'u' from rfl),
    hq, Option.some_bind, if_pos hr, if_true]

theorem parseStrF_surEsc (fuel : Nat) (x1 x2 x3 x4 y1 y2 y3 y4 : Char) (cs : List Char)
    (u u2 : Nat) (hq : hexQuad x1 x2 x3 x4 = some u) (hq2 : hexQuad y1 y2 y3 y4 = some u2)
    (h1 : ¬ (u < 0xD800 ∨ 0xE000 ≤ u)) (h2 : u < 0xDC00)
    (h3 : 0xDC00 ≤ u2 ∧ u2 < 0xE000) :
    parseStrF (fuel + 1)
        ('\\' :: 'u' :: x1 :: x2 :: x3 :: x4 :: '\\' :: 'u' :: y1 :: y2 :: y3 :: y4 :: cs) =
      (parseStrF fuel cs).map (fun p =>
        (Char.ofNat (0x10000 + (u - 0xD800) * 0x400 + (u2 - 0xDC00)) :: p.1, p.2)) := by
  simp only [parseStrF, parseStrStep, if_neg (show ('\\' : Char) ≠ '"' by decide),
    if_pos (show ('\\' : Char) = '\\' from rfl), if_pos (show ('u' : Char) = 'u' from rfl),
    hq, Option.some_bind, if_neg h1, if_pos h2,
    if_pos (show ('\\' : Char) = '\\' ∧ ('u' : Char) = 'u' from ⟨rfl, rfl⟩), hq2, if_pos h3,
    if_true, and_self]

theorem jsonEncStrBody_cons (c : Char) (cs : List Char) :
    jsonEncStrBody (c :: cs) = jsonEscapeChar c ++ jsonEncStrBody cs := by
  simp [jsonEncStrBody]

theorem parseStrF_encBody (cs : List Char) : ∀ fuel, cs.length < fuel → ∀ rest,
    parseStrF fuel (jsonEncStrBody cs ++ '"' :: rest) = some (cs, rest) := by
  induction cs with
  | nil =>
    intro fuel h rest
    obtain ⟨f, rfl⟩ : ∃ f, fuel = f + 1 := ⟨fuel - 1, by omega⟩
    have : jsonEncStrBody [] = [] := rfl
    rw [this, List.nil_append, parseStrF_quote]
  | cons c cs ih =>
    intro fuel h rest
    obtain ⟨f, rfl⟩ : ∃ f, fuel = f + 1 := ⟨fuel - 1, by omega⟩
    have hf : cs.length < f := by
      simp at h
      omega
    rw [jsonEncStrBody_cons, List.append_assoc]
    by_cases h1 : c = '"'
    · subst h1
      rw [show jsonEscapeChar '"' = ['\\', '"'] from by decide]
      rw [show (['\\', '"'] : List Char) ++ (jsonEncStrBody cs ++ '"' :: rest) =
        '\\' :: '"' :: (jsonEncStrBody cs ++ '"' :: rest) from rfl]
      rw [parseStrF_simpleEsc f '"' '"' _ (by decide) (by decide), ih f hf rest]
      rfl
    · by_cases h2 : c = '\\'
      · subst h2
        rw [show jsonEscapeChar '\\' = ['\\', '\\'] from by decide]
        rw [show (['\\', '\\'] : List Char) ++ (jsonEncStrBody cs ++ '"' :: rest) =
          '\\' :: '\\' :: (jsonEncStrBody cs ++ '"' :: rest) from rfl]
        rw [parseStrF_simpleEsc f '\\' '\\' _ (by decide) (by decide), ih f hf rest]
        rfl
      · by_cases h3 : c = '\n'
        · subst h3
          rw [show jsonEscapeChar '\n' = ['\\', 'n'] from by decide]
          rw [show (['\\', 'n'] : List Char) ++ (jsonEncStrBody cs ++ '"' :: rest) =
            '\\' :: 'n' :: (jsonEncStrBody cs ++ '"' :: rest) from rfl]
          rw [parseStrF_simpleEsc f 'n' '\n' _ (by decide) (by decide), ih f hf rest]
          rfl
        · by_cases h4 : c = '\r'
          · subst h4
            rw [show jsonEscapeChar '\r' = ['\\', 'r'] from by decide]
            rw [show (['\\', 'r'] : List Char) ++ (jsonEncStrBody cs ++ '"' :: rest) =
              '\\' :: 'r' :: (jsonEncStrBody cs ++ '"' :: rest) from rfl]
            rw [parseStrF_simpleEsc f 'r' '\r' _ (by decide) (by decide), ih f hf rest]
            rfl
          · by_cases h5 : c = '\t'
            · subst h5
              rw [show jsonEscapeChar '\t' = ['\\', 't'] from by decide]
              rw [show (['\\', 't'] : List Char) ++ (jsonEncStrBody cs ++ '"' :: rest) =
                '\\' :: 't' :: (jsonEncStrBody cs ++ '"' :: rest) from rfl]
              rw [parseStrF_simpleEsc f 't' '\t' _ (by decide) (by decide), ih f hf rest]
              rfl
            · by_cases h6 : c.toNat = 8
              · have hc : c = Char.ofNat 8 := by rw [← h6, Char.ofNat_toNat]
                subst hc
                rw [show jsonEscapeChar (Char.ofNat 8) = ['\\', 'b'] from by decide]
                rw [show (['\\', 'b'] : List Char) ++ (jsonEncStrBody cs ++ '"' :: rest) =
                  '\\' :: 'b' :: (jsonEncStrBody cs ++ '"' :: rest) from rfl]
                rw [parseStrF_simpleEsc f 'b' (Char.ofNat 8) _ (by decide) (by decide),
                  ih f hf rest]
                rfl
              · by_cases h7 : c.toNat = 12
                · have hc : c = Char.ofNat 12 := by rw [← h7, Char.ofNat_toNat]
                  subst hc
                  rw [show jsonEscapeChar (Char.ofNat 12) = ['\\', 'f'] from by decide]
                  rw [show (['\\', 'f'] : List Char) ++ (jsonEncStrBody cs ++ '"' :: rest) =
                    '\\' :: 'f' :: (jsonEncStrBody cs ++ '"' :: rest) from rfl]
                  rw [parseStrF_simpleEsc f 'f' (Char.ofNat 12) _ (by decide) (by decide),
                    ih f hf rest]
                  rfl
                · by_cases h8 : 0x20 ≤ c.toNat ∧ c.toNat < 0x7F
                  · have he : jsonEscapeChar c = [c] := by
                      unfold jsonEscapeChar
                      rw [if_neg h1, if_neg h2, if_neg h3, if_neg h4, if_neg h5, if_neg h6,
                        if_neg h7, if_pos h8]
                    rw [he, List.singleton_append,
                      parseStrF_cons f c _ h1 h2 (by omega), ih f hf rest]
                    rfl
                  · by_cases h9 : c.toNat < 0x10000
                    · have he : jsonEscapeChar c = '\\' :: 'u' :: hex4 c.toNat := by
                        unfold jsonEscapeChar
                        rw [if_neg h1, if_neg h2, if_neg h3, if_neg h4, if_neg h5, if_neg h6,
                          if_neg h7, if_neg h8, if_pos h9]
                      have hrange : c.toNat < 0xD800 ∨ 0xE000 ≤ c.toNat := by
                        rcases char_valid_ranges c with hv | ⟨hv, _⟩
                        · left; exact hv
                        · right; exact hv
                      rw [he, show ('\\' :: 'u' :: hex4 c.toNat) ++
                          (jsonEncStrBody cs ++ '"' :: rest) =
                        '\\' :: 'u' :: hexDigitChar (c.toNat / 4096 % 16) ::
                          hexDigitChar (c.toNat / 256 % 16) :: hexDigitChar (c.toNat / 16 % 16) ::
                          hexDigitChar (c.toNat % 16) :: (jsonEncStrBody cs ++ '"' :: rest)
                        from rfl]
                      rw [parseStrF_uEsc f _ _ _ _ _ c.toNat
                        (hexQuad_hex4 c.toNat (by omega)) hrange, ih f hf rest]
                      simp [Char.ofNat_toNat]
                    · have he : jsonEscapeChar c =
                          '\\' :: 'u' :: hex4 (0xD800 + (c.toNat - 0x10000) / 0x400) ++
                            ('\\' :: 'u' :: hex4 (0xDC00 + (c.toNat - 0x10000) % 0x400)) := by
                        unfold jsonEscapeChar
                        rw [if_neg h1, if_neg h2, if_neg h3, if_neg h4, if_neg h5, if_neg h6,
                          if_neg h7, if_neg h8, if_neg h9]
                      have hmax : c.toNat < 0x110000 := by
                        rcases char_valid_ranges c with hv | ⟨_, hv⟩
                        · omega
                        · exact hv
                      set hi := 0xD800 + (c.toNat - 0x10000) / 0x400 with hhi
                      set lo := 0xDC00 + (c.toNat - 0x10000) % 0x400 with hlo
                      have hhi16 : hi < 65536 := by omega
                      have hlo16 : lo < 65536 := by omega
                      rw [he, show ('\\' :: 'u' :: hex4 hi ++ ('\\' :: 'u' :: hex4 lo)) ++
                          (jsonEncStrBody cs ++ '"' :: rest) =
                        '\\' :: 'u' :: hexDigitChar (hi / 4096 % 16) ::
                          hexDigitChar (hi / 256 % 16) :: hexDigitChar (hi / 16 % 16) ::
                          hexDigitChar (hi % 16) ::
                          '\\' :: 'u' :: hexDigitChar (lo / 4096 % 16) ::
                          hexDigitChar (lo / 256 % 16) :: hexDigitChar (lo / 16 % 16) ::
                          hexDigitChar (lo % 16) :: (jsonEncStrBody cs ++ '"' :: rest)
                        from by simp [hex4]]
                      rw [parseStrF_surEsc f _ _ _ _ _ _ _ _ _ hi lo
                        (hexQuad_hex4 hi hhi16) (hexQuad_hex4 lo hlo16)
                        (by omega) (by omega) (by constructor <;> omega), ih f hf rest]
                      have harg : 0x10000 + (hi - 0xD800) * 0x400 + (lo - 0xDC00) = c.toNat := by
                        omega
                      rw [harg, Char.ofNat_toNat]
                      rfl

theorem jsonEscapeChar_ne_nil (c : Char) : jsonEscapeChar c ≠ [] := by
  unfold jsonEscapeChar
  split_ifs <;> simp [hex4]

theorem jsonEncStrBody_length (cs : List Char) : cs.length ≤ (jsonEncStrBody cs).length := by
  induction cs with
  | nil => simp [jsonEncStrBody]
  | cons c cs ih =>
    rw [jsonEncStrBody_cons, List.length_append]
    have h1 : 1 ≤ (jsonEscapeChar c).length := by
      cases hc : jsonEscapeChar c with
      | nil => exact absurd hc (jsonEscapeChar_ne_nil c)
      | cons a l => simp
    simp only [List.length_cons]
    omega

theorem parseStr_encBody (cs rest : List Char) :
    parseStr (jsonEncStrBody cs ++ '"' :: rest) = some (cs, rest) := by
  unfold parseStr
  apply parseStrF_encBody
  have := jsonEncStrBody_length cs
  simp only [List.length_append, List.length_cons]
  omega

/- ### Heads, whitespace and delimiter facts -/

theorem goodHeadChars_not_ws : ∀ c ∈ goodHeadChars, isWsChar c = false := by decide

theorem goodHeadChars_ne_bracket : ∀ c ∈ goodHeadChars, c ≠ ']' := by decide

theorem wsChar_delim (c : Char) (h : isWsChar c = true) :
    c.isDigit = false ∧ c ≠ '.' ∧ c ≠ 'e' ∧ c ≠ 'E' := by
  have : c = ' ' ∨ c = '\t' ∨ c = '\n' ∨ c = '\r' := by
    unfold isWsChar at h
    simp at h
    tauto
  rcases this with h | h | h | h <;> (subst h; refine ⟨by decide, by decide, by decide, by decide⟩)

theorem delimOk_cons (c : Char) (rest : List Char)
    (h : c.isDigit = false ∧ c ≠ '.' ∧ c ≠ 'e' ∧ c ≠ 'E') : delimOk (c :: rest) := h

theorem delimOk_ws_close (wsc : List Char) (hws : AllWs wsc) (c : Char) (rest : List Char)
    (hc : c.isDigit = false ∧ c ≠ '.' ∧ c ≠ 'e' ∧ c ≠ 'E') :
    delimOk (wsc ++ c :: rest) := by
  cases wsc with
  | nil => exact hc
  | cons w ws =>
    exact wsChar_delim w (hws w (by simp))

theorem intStr_data_cons (n : Int) :
    ∃ c tail, (intStr n).data = c :: tail ∧
      c ∈ ['-', '0', '1', '2', '3', '4', '5', '6', '7', '8', '9'] := by
  unfold intStr
  split
  · refine ⟨'-', natDigits (-n).toNat, rfl, by decide⟩
  · cases hnd : natDigits n.toNat with
    | nil => exact absurd hnd (natDigits_ne_nil n.toNat)
    | cons a l =>
      refine ⟨a, l, by simp [hnd], ?_⟩
      have := natDigits_all_mem n.toNat a (by rw [hnd]; simp)
      simp at this ⊢
      tauto

theorem need_pos (v : Value) : 1 ≤ need v := by
  cases v <;> simp only [need] <;> omega

theorem jsonEnc_goodHead (pretty : Bool) (level : Nat) (v : Value) :
    goodHead (jsonEnc pretty level v) := by
  cases v with
  | null =>
    show ('n' : Char) ∈ goodHeadChars
    decide
  | bool b =>
    cases b
    · show ('f' : Char) ∈ goodHeadChars
      decide
    · show ('t' : Char) ∈ goodHeadChars
      decide
  | int n =>
    obtain ⟨c, tail, h1, h2⟩ := intStr_data_cons n
    have he : jsonEnc pretty level (.int n) = (intStr n).data := rfl
    rw [he, h1]
    show c ∈ goodHeadChars
    fin_cases h2 <;> decide
  | str s =>
    have he : jsonEnc pretty level (.str s) =
      '"' :: (jsonEncStrBody s.data ++ ['"']) := rfl
    rw [he]
    show ('"' : Char) ∈ goodHeadChars
    decide
  | list items =>
    cases items with
    | nil =>
      show ('[' : Char) ∈ goodHeadChars
      decide
    | cons v vs =>
      have he : jsonEnc pretty level (.list (v :: vs)) =
        '[' :: (indentWs pretty (level + 1) ++ jsonEncElems pretty (level + 1) (v :: vs) ++
          indentWs pretty level ++ [']']) := rfl
      rw [he]
      show ('[' : Char) ∈ goodHeadChars
      decide
  | dict es =>
    cases es with
    | nil =>
      show ('\x7b' : Char) ∈ goodHeadChars
      decide
    | cons e es =>
      have he : jsonEnc pretty level (.dict (e :: es)) =
        '\x7b' :: (indentWs pretty (level + 1) ++ jsonEncMembers pretty (level + 1) (e :: es) ++
          indentWs pretty level ++ ['\x7d']) := rfl
      rw [he]
      show ('\x7b' : Char) ∈ goodHeadChars
      decide

theorem goodHead_cons (cs : List Char) (h : goodHead cs) :
    ∃ c tail, cs = c :: tail ∧ c ∈ goodHeadChars := by
  cases cs with
  | nil => exact absurd h (by simp [goodHead])
  | cons c tail => exact ⟨c, tail, rfl, h⟩

theorem skipWs_goodHead (cs rest : List Char) (h : goodHead cs) :
    skipWs (cs ++ rest) = cs ++ rest := by
  obtain ⟨c, tail, rfl, hc⟩ := goodHead_cons cs h
  exact skipWs_cons_not _ (goodHeadChars_not_ws c hc)

/- ### Number token round trip -/

theorem parseNatTok_natDigits (n : Nat) (rest : List Char) (hd : delimOk rest) :
    parseNatTok (natDigits n ++ rest) = some (n, rest) := by
  have hrest : rest = [] ∨ ∃ c cs, rest = c :: cs ∧ c.isDigit = false := by
    cases rest with
    | nil => left; rfl
    | cons c cs => right; exact ⟨c, cs, rfl, hd.1⟩
  obtain ⟨htake, hdrop⟩ :=
    takeWhile_append_stop (natDigits n) rest (natDigits_all_digits n) hrest
  unfold parseNatTok
  rw [htake, hdrop]
  rw [if_neg (by simp [natDigits_ne_nil n])]
  have hlead : ¬ ((natDigits n).head? = some '0' ∧ natDigits n ≠ ['0']) := by
    by_cases h0 : n = 0
    · subst h0
      rw [natDigits_zero]
      simp
    · intro ⟨ha, _⟩
      exact natDigits_head_ne_zero n h0 ha
  rw [if_neg hlead]
  cases rest with
  | nil => rw [digitsVal_natDigits]
  | cons c cs =>
    have : ¬ (c = '.' ∨ c = 'e' ∨ c = 'E') := by
      intro hcon
      rcases hcon with h | h | h
      · exact hd.2.1 h
      · exact hd.2.2.1 h
      · exact hd.2.2.2 h
    simp only [if_neg this]
    rw [digitsVal_natDigits]

theorem parseIntTok_intStr (n : Int) (rest : List Char) (hd : delimOk rest) :
    parseIntTok ((intStr n).data ++ rest) = some (n, rest) := by
  by_cases hneg : n < 0
  · have he : (intStr n).data = '-' :: natDigits (-n).toNat := by
      unfold intStr
      rw [if_pos hneg]
    rw [he]
    have : parseIntTok ('-' :: (natDigits (-n).toNat ++ rest)) =
        (parseNatTok (natDigits (-n).toNat ++ rest)).map (fun p => (-(p.1 : Int), p.2)) := by
      rw [parseIntTok]
      rw [if_pos rfl]
    rw [List.cons_append, this, parseNatTok_natDigits _ rest hd]
    simp only [Option.map_some']
    congr 1
    have h1 : ((-n).toNat : Int) = -n := Int.toNat_of_nonneg (by omega)
    rw [Prod.ext_iff]
    constructor
    · simp only []
      omega
    · rfl
  · have he : (intStr n).data = natDigits n.toNat := by
      unfold intStr
      rw [if_neg hneg]
    rw [he]
    cases hnd : natDigits n.toNat with
    | nil => exact absurd hnd (natDigits_ne_nil n.toNat)
    | cons a l =>
      have ha : a ≠ '-' := by
        have := natDigits_all_mem n.toNat a (by rw [hnd]; simp)
        fin_cases this <;> decide
      rw [List.cons_append, parseIntTok, if_neg ha, ← List.cons_append, ← hnd,
        parseNatTok_natDigits _ rest hd]
      simp only [Option.map_some']
      congr 1
      rw [Prod.ext_iff]
      constructor
      · simp only []
        omega
      · rfl

/- ### Scanner dispatch lemmas -/

theorem parseVal_ws (fuel : Nat) (ws cs : List Char) (h : AllWs ws) :
    parseVal (fuel + 1) (ws ++ cs) = parseVal (fuel + 1) cs := by
  rw [parseVal, parseVal, skipWs_append_ws cs h]

theorem parseVal_null (fuel : Nat) (rest : List Char) :
    parseVal (fuel + 1) ('n' :: 'u' :: 'l' :: 'l' :: rest) = some (.null, rest) := rfl

theorem parseVal_true (fuel : Nat) (rest : List Char) :
    parseVal (fuel + 1) ('t' :: 'r' :: 'u' :: 'e' :: rest) = some (.bool true, rest) := rfl

theorem parseVal_false (fuel : Nat) (rest : List Char) :
    parseVal (fuel + 1) ('f' :: 'a' :: 'l' :: 's' :: 'e' :: rest) =
      some (.bool false, rest) := rfl

theorem parseVal_quote (fuel : Nat) (rest : List Char) :
    parseVal (fuel + 1) ('"' :: rest) =
      (parseStr rest).map (fun p => (Value.str ⟨p.1⟩, p.2)) := rfl

theorem parseVal_obrace (fuel : Nat) (rest : List Char) :
    parseVal (fuel + 1) ('\x7b' :: rest) = parseObj fuel (skipWs rest) := rfl

theorem parseVal_obracket (fuel : Nat) (rest : List Char) :
    parseVal (fuel + 1) ('[' :: rest) = parseArr fuel (skipWs rest) := rfl

theorem parseVal_num (fuel : Nat) (c : Char) (rest : List Char)
    (h : c ∈ ['-', '0', '1', '2', '3', '4', '5', '6', '7', '8', '9']) :
    parseVal (fuel + 1) (c :: rest) =
      (parseIntTok (c :: rest)).map (fun p => (Value.int p.1, p.2)) := by
  fin_cases h <;> rfl

theorem parseObj_close (fuel : Nat) (rest : List Char) :
    parseObj (fuel + 1) ('\x7d' :: rest) = some (.dict [], rest) := rfl

theorem parseObj_quote (fuel : Nat) (rest : List Char) :
    parseObj (fuel + 1) ('"' :: rest) =
      (parseMembers fuel ('"' :: rest)).map (fun p => (Value.dict p.1, p.2)) := rfl

theorem parseArr_close (fuel : Nat) (rest : List Char) :
    parseArr (fuel + 1) (']' :: rest) = some (.list [], rest) := rfl

theorem parseArr_go (fuel : Nat) (c : Char) (rest : List Char) (h : c ≠ ']') :
    parseArr (fuel + 1) (c :: rest) =
      (parseElems fuel (c :: rest)).map (fun p => (Value.list p.1, p.2)) := by
  rw [parseArr]
  rw [if_neg h]

theorem parseMembers_last (f : Nat) (R kd r1 r2 : List Char) (v : Value) (r3 r4 : List Char)
    (hps : parseStr R = some (kd, r1))
    (h1 : skipWs r1 = ':' :: r2)
    (hv : parseVal f r2 = some (v, r3))
    (h3 : skipWs r3 = '\x7d' :: r4) :
    parseMembers (f + 1) ('"' :: R) = some ([((⟨kd⟩ : String), v)], r4) := by
  rw [parseMembers]
  simp only [hps, h1, hv, h3]
  simp

theorem parseMembers_comma (f : Nat) (R kd r1 r2 : List Char) (v : Value) (r3 r4 r5 : List Char)
    (hps : parseStr R = some (kd, r1))
    (h1 : skipWs r1 = ':' :: r2)
    (hv : parseVal f r2 = some (v, r3))
    (h3 : skipWs r3 = ',' :: r4)
    (h4 : skipWs r4 = '"' :: r5) :
    parseMembers (f + 1) ('"' :: R) =
      (parseMembers f ('"' :: r5)).map (fun p => (((⟨kd⟩ : String), v) :: p.1, p.2)) := by
  rw [parseMembers]
  simp only [hps, h1, hv, h3, h4]
  simp

theorem parseElems_last (f : Nat) (cs : List Char) (v : Value) (r1 r2 : List Char)
    (hv : parseVal f cs = some (v, r1))
    (h1 : skipWs r1 = ']' :: r2) :
    parseElems (f + 1) cs = some ([v], r2) := by
  rw [parseElems]
  simp only [hv, h1]
  simp

theorem parseElems_comma (f : Nat) (cs : List Char) (v : Value) (r1 r2 : List Char)
    (hv : parseVal f cs = some (v, r1))
    (h1 : skipWs r1 = ',' :: r2) :
    parseElems (f + 1) cs = (parseElems f r2).map (fun p => (v :: p.1, p.2)) := by
  rw [parseElems]
  simp only [hv, h1]
  simp

/- ### Encoder shapes -/

theorem jsonEncStr_cons (k : String) (y : List Char) :
    jsonEncStr k ++ y = '"' :: (jsonEncStrBody k.data ++ '"' :: y) := by
  simp [jsonEncStr]

theorem jsonEncMembers_single (p : Bool) (l : Nat) (k : String) (v : Value) :
    jsonEncMembers p l [(k, v)] = jsonEncStr k ++ ':' :: ' ' :: jsonEnc p l v := rfl

theorem jsonEncMembers_cons2 (p : Bool) (l : Nat) (k : String) (v : Value)
    (m : String × Value) (ms : List (String × Value)) :
    jsonEncMembers p l ((k, v) :: m :: ms) =
      jsonEncStr k ++ ':' :: ' ' :: jsonEnc p l v ++ ',' :: sepWs p l ++
        jsonEncMembers p l (m :: ms) := rfl

theorem jsonEncElems_single (p : Bool) (l : Nat) (v : Value) :
    jsonEncElems p l [v] = jsonEnc p l v := rfl

theorem jsonEncElems_cons2 (p : Bool) (l : Nat) (v w : Value) (ws : List Value) :
    jsonEncElems p l (v :: w :: ws) =
      jsonEnc p l v ++ ',' :: sepWs p l ++ jsonEncElems p l (w :: ws) := rfl

theorem jsonEncMembers_head (p : Bool) (l : Nat) (k : String) (v : Value)
    (ms : List (String × Value)) :
    ∃ R, jsonEncMembers p l ((k, v) :: ms) = '"' :: R := by
  cases ms with
  | nil =>
    refine ⟨jsonEncStrBody k.data ++ '"' :: (':' :: ' ' :: jsonEnc p l v), ?_⟩
    rw [jsonEncMembers_single, jsonEncStr_cons]
  | cons m ms =>
    refine ⟨jsonEncStrBody k.data ++ '"' :: (':' :: ' ' ::
      (jsonEnc p l v ++ ',' :: sepWs p l ++ jsonEncMembers p l (m :: ms))), ?_⟩
    rw [jsonEncMembers_cons2]
    rw [show jsonEncStr k ++ ':' :: ' ' :: jsonEnc p l v ++ ',' :: sepWs p l ++
        jsonEncMembers p l (m :: ms) =
      jsonEncStr k ++ (':' :: ' ' ::
        (jsonEnc p l v ++ ',' :: sepWs p l ++ jsonEncMembers p l (m :: ms))) from by simp]
    rw [jsonEncStr_cons]

theorem jsonEncElems_head (p : Bool) (l : Nat) (v : Value) (vs : List Value) :
    ∃ c tail, jsonEncElems p l (v :: vs) = c :: tail ∧ c ∈ goodHeadChars := by
  obtain ⟨c, t0, h1, h2⟩ := goodHead_cons _ (jsonEnc_goodHead p l v)
  cases vs with
  | nil => exact ⟨c, t0, by rw [jsonEncElems_single, h1], h2⟩
  | cons w ws =>
    refine ⟨c, t0 ++ ',' :: sepWs p l ++ jsonEncElems p l (w :: ws), ?_, h2⟩
    rw [jsonEncElems_cons2, h1]
    simp

/- ### The round trip of the scanner -/

theorem value_sizeOf_pos (v : Value) : 1 ≤ sizeOf v := by
  cases v <;> simp

theorem list_sizeOf_pos {α : Type} [SizeOf α] (l : List α) : 1 ≤ sizeOf l := by
  cases l with
  | nil => simp
  | cons a t => simp only [List.cons.sizeOf_spec]; omega

theorem jsonRoundtripAux (n : Nat) :
    (∀ v : Value, sizeOf v ≤ n → ∀ (pretty : Bool) (level fuel : Nat) (ws rest : List Char),
      need v ≤ fuel → AllWs ws → delimOk rest →
      parseVal fuel (ws ++ (jsonEnc pretty level v ++ rest)) = some (v, rest)) ∧
    (∀ es : List (String × Value), sizeOf es ≤ n → es ≠ [] →
      ∀ (pretty : Bool) (level fuel : Nat) (wsc : List Char) (rest : List Char),
      needM es < fuel → AllWs wsc → delimOk rest →
      parseMembers fuel (jsonEncMembers pretty level es ++ (wsc ++ '\x7d' :: rest)) =
        some (es, rest)) ∧
    (∀ vs : List Value, sizeOf vs ≤ n → vs ≠ [] →
      ∀ (pretty : Bool) (level fuel : Nat) (wsp wsc : List Char) (rest : List Char),
      needE vs < fuel → AllWs wsp → AllWs wsc → delimOk rest →
      parseElems fuel (wsp ++ (jsonEncElems pretty level vs ++ (wsc ++ ']' :: rest))) =
        some (vs, rest)) := by
  induction n with
  | zero =>
    refine ⟨fun v hsz => absurd hsz (by have := value_sizeOf_pos v; omega),
      fun es hsz => absurd hsz (by have := list_sizeOf_pos es; omega),
      fun vs hsz => absurd hsz (by have := list_sizeOf_pos vs; omega)⟩
  | succ n ih =>
    obtain ⟨ihV, ihM, ihE⟩ := ih
    refine ⟨?_, ?_, ?_⟩
    · intro v hsz pretty level fuel ws rest hf hws hrest
      obtain ⟨f, rfl⟩ : ∃ f, fuel = f + 1 := ⟨fuel - 1, by have := need_pos v; omega⟩
      rw [parseVal_ws f ws _ hws]
      cases v with
      | null =>
        rw [show jsonEnc pretty level .null ++ rest = 'n' :: 'u' :: 'l' :: 'l' :: rest from rfl]
        exact parseVal_null f rest
      | bool b =>
        cases b with
        | false =>
          rw [show jsonEnc pretty level (.bool false) ++ rest =
            'f' :: 'a' :: 'l' :: 's' :: 'e' :: rest from rfl]
          exact parseVal_false f rest
        | true =>
          rw [show jsonEnc pretty level (.bool true) ++ rest =
            't' :: 'r' :: 'u' :: 'e' :: rest from rfl]
          exact parseVal_true f rest
      | int n =>
        obtain ⟨c, tail, h1, h2⟩ := intStr_data_cons n
        have he : jsonEnc pretty level (.int n) = (intStr n).data := rfl
        rw [he, h1, List.cons_append, parseVal_num f c _ h2, ← List.cons_append, ← h1,
          parseIntTok_intStr n rest hrest]
        rfl
      | str s =>
        have he : jsonEnc pretty level (.str s) ++ rest =
            '"' :: (jsonEncStrBody s.data ++ '"' :: rest) := by
          rw [show jsonEnc pretty level (.str s) = jsonEncStr s from rfl, jsonEncStr_cons]
        rw [he, parseVal_quote, parseStr_encBody s.data rest]
        simp only [Option.map_some', strMk_data]
      | dict es =>
        cases es with
        | nil =>
          rw [show jsonEnc pretty level (.dict []) ++ rest = '\x7b' :: ('\x7d' :: rest) from rfl,
            parseVal_obrace, skipWs_cons_not _ (by decide)]
          obtain ⟨f2, rfl⟩ : ∃ f2, f = f2 + 1 := ⟨f - 1, by
            simp only [need, needM] at hf
            omega⟩
          exact parseObj_close f2 rest
        | cons e es' =>
          have hneed : 3 + needM (e :: es') ≤ f + 1 := hf
          obtain ⟨f2, rfl⟩ : ∃ f2, f = f2 + 1 := ⟨f - 1, by omega⟩
          obtain ⟨k, v⟩ := e
          have he : jsonEnc pretty level (.dict ((k, v) :: es')) ++ rest =
              '\x7b' :: (indentWs pretty (level + 1) ++
                (jsonEncMembers pretty (level + 1) ((k, v) :: es') ++
                  (indentWs pretty level ++ '\x7d' :: rest))) := by
            rw [show jsonEnc pretty level (.dict ((k, v) :: es')) =
              '\x7b' :: indentWs pretty (level + 1) ++
                jsonEncMembers pretty (level + 1) ((k, v) :: es') ++
                indentWs pretty level ++ ['\x7d'] from rfl]
            simp
          rw [he, parseVal_obrace, skipWs_append_ws _ (allWs_indentWs _ _)]
          obtain ⟨R, hR⟩ := jsonEncMembers_head pretty (level + 1) k v es'
          rw [show jsonEncMembers pretty (level + 1) ((k, v) :: es') ++
              (indentWs pretty level ++ '\x7d' :: rest) =
            '"' :: (R ++ (indentWs pretty level ++ '\x7d' :: rest)) from by rw [hR]; simp]
          rw [skipWs_cons_not _ (by decide), parseObj_quote]
          rw [show ('"' : Char) :: (R ++ (indentWs pretty level ++ '\x7d' :: rest)) =
            jsonEncMembers pretty (level + 1) ((k, v) :: es') ++
              (indentWs pretty level ++ '\x7d' :: rest) from by rw [hR]; simp]
          rw [ihM ((k, v) :: es') (by simp at hsz ⊢; omega) (by simp) pretty (level + 1) f2
            (indentWs pretty level) rest (by omega) (allWs_indentWs _ _) hrest]
          rfl
      | list items =>
        cases items with
        | nil =>
          rw [show jsonEnc pretty level (.list []) ++ rest = '[' :: (']' :: rest) from rfl,
            parseVal_obracket, skipWs_cons_not _ (by decide)]
          obtain ⟨f2, rfl⟩ : ∃ f2, f = f2 + 1 := ⟨f - 1, by
            simp only [need, needE] at hf
            omega⟩
          exact parseArr_close f2 rest
        | cons v vs =>
          have hneed : 3 + needE (v :: vs) ≤ f + 1 := hf
          obtain ⟨f2, rfl⟩ : ∃ f2, f = f2 + 1 := ⟨f - 1, by omega⟩
          have he : jsonEnc pretty level (.list (v :: vs)) ++ rest =
              '[' :: (indentWs pretty (level + 1) ++
                (jsonEncElems pretty (level + 1) (v :: vs) ++
                  (indentWs pretty level ++ ']' :: rest))) := by
            rw [show jsonEnc pretty level (.list (v :: vs)) =
              '[' :: indentWs pretty (level + 1) ++
                jsonEncElems pretty (level + 1) (v :: vs) ++
                indentWs pretty level ++ [']'] from rfl]
            simp
          rw [he, parseVal_obracket, skipWs_append_ws _ (allWs_indentWs _ _)]
          obtain ⟨c, t0, hE, hc⟩ := jsonEncElems_head pretty (level + 1) v vs
          rw [show jsonEncElems pretty (level + 1) (v :: vs) ++
              (indentWs pretty level ++ ']' :: rest) =
            c :: (t0 ++ (indentWs pretty level ++ ']' :: rest)) from by rw [hE]; simp]
          rw [skipWs_cons_not _ (goodHeadChars_not_ws c hc),
            parseArr_go f2 c _ (goodHeadChars_ne_bracket c hc)]
          rw [show c :: (t0 ++ (indentWs pretty level ++ ']' :: rest)) =
            [] ++ (jsonEncElems pretty (level + 1) (v :: vs) ++
              (indentWs pretty level ++ ']' :: rest)) from by rw [hE]; simp]
          rw [ihE (v :: vs) (by simp at hsz ⊢; omega) (by simp) pretty (level + 1) f2
            [] (indentWs pretty level) rest (by omega) (by intro x hx; simp at hx)
            (allWs_indentWs _ _) hrest]
          rfl
    · intro es hsz hne pretty level fuel wsc rest hf hwsc hrest
      obtain ⟨f, rfl⟩ : ∃ f, fuel = f + 1 := ⟨fuel - 1, by omega⟩
      cases es with
      | nil => exact absurd rfl hne
      | cons e es' =>
        obtain ⟨k, v⟩ := e
        have hneedv : need v ≤ f := by
          have : needM ((k, v) :: es') = 1 + need v + needM es' := rfl
          omega
        cases es' with
        | nil =>
          rw [jsonEncMembers_single,
            show (jsonEncStr k ++ ':' :: ' ' :: jsonEnc pretty level v) ++
                (wsc ++ '\x7d' :: rest) =
              jsonEncStr k ++ (':' :: ' ' ::
                (jsonEnc pretty level v ++ (wsc ++ '\x7d' :: rest))) from by simp,
            jsonEncStr_cons]
          rw [parseMembers_last f _ k.data _ (' ' ::
              (jsonEnc pretty level v ++ (wsc ++ '\x7d' :: rest))) v
              (wsc ++ '\x7d' :: rest) rest
            (parseStr_encBody k.data _)
            (skipWs_cons_not _ (by decide))
            (by
              rw [show (' ' :: (jsonEnc pretty level v ++ (wsc ++ '\x7d' :: rest))) =
                [' '] ++ (jsonEnc pretty level v ++ (wsc ++ '\x7d' :: rest)) from rfl]
              exact ihV v (by simp at hsz ⊢; omega) pretty level f [' '] (wsc ++ '\x7d' :: rest) hneedv
                (by intro x hx; simp at hx; rw [hx]; decide)
                (delimOk_ws_close wsc hwsc _ rest (by refine ⟨by decide, by decide, by decide, by decide⟩)))
            ((skipWs_append_ws _ hwsc).trans (skipWs_cons_not _ (by decide)))]
        | cons m ms =>
          rw [jsonEncMembers_cons2,
            show (jsonEncStr k ++ ':' :: ' ' :: jsonEnc pretty level v ++ ',' :: sepWs pretty level ++
                jsonEncMembers pretty level (m :: ms)) ++ (wsc ++ '\x7d' :: rest) =
              jsonEncStr k ++ (':' :: ' ' ::
                (jsonEnc pretty level v ++ (',' :: (sepWs pretty level ++
                  (jsonEncMembers pretty level (m :: ms) ++ (wsc ++ '\x7d' :: rest)))))) from by
                simp,
            jsonEncStr_cons]
          obtain ⟨R, hR⟩ := jsonEncMembers_head pretty level m.1 m.2 ms
          have hmm : (m.1, m.2) = m := rfl
          rw [hmm] at hR
          rw [parseMembers_comma f _ k.data _ (' ' ::
              (jsonEnc pretty level v ++ (',' :: (sepWs pretty level ++
                (jsonEncMembers pretty level (m :: ms) ++ (wsc ++ '\x7d' :: rest)))))) v
              (',' :: (sepWs pretty level ++
                (jsonEncMembers pretty level (m :: ms) ++ (wsc ++ '\x7d' :: rest))))
              (sepWs pretty level ++
                (jsonEncMembers pretty level (m :: ms) ++ (wsc ++ '\x7d' :: rest)))
              (R ++ (wsc ++ '\x7d' :: rest))
            (parseStr_encBody k.data _)
            (skipWs_cons_not _ (by decide))
            (by
              rw [show (' ' :: (jsonEnc pretty level v ++ (',' :: (sepWs pretty level ++
                  (jsonEncMembers pretty level (m :: ms) ++ (wsc ++ '\x7d' :: rest)))))) =
                [' '] ++ (jsonEnc pretty level v ++ (',' :: (sepWs pretty level ++
                  (jsonEncMembers pretty level (m :: ms) ++ (wsc ++ '\x7d' :: rest))))) from rfl]
              exact ihV v (by simp at hsz ⊢; omega) pretty level f [' '] _ hneedv
                (by intro x hx; simp at hx; rw [hx]; decide)
                (by refine ⟨by decide, by decide, by decide, by decide⟩))
            (skipWs_cons_not _ (by decide))
            (by
              rw [skipWs_append_ws _ (allWs_sepWs pretty level), hR]
              rw [show ('"' :: R) ++ (wsc ++ '\x7d' :: rest) =
                '"' :: (R ++ (wsc ++ '\x7d' :: rest)) from by simp]
              exact skipWs_cons_not _ (by decide))]
          rw [show ('"' : Char) :: (R ++ (wsc ++ '\x7d' :: rest)) =
            jsonEncMembers pretty level (m :: ms) ++ (wsc ++ '\x7d' :: rest) from by
              rw [hR]; simp]
          rw [ihM (m :: ms) (by simp at hsz ⊢; omega) (by simp) pretty level f wsc rest
            (by
              have h1 : needM ((k, v) :: m :: ms) = 1 + need v + needM (m :: ms) := rfl
              omega)
            hwsc hrest]
          rw [Option.map_some', strMk_data]
    · intro vs hsz hne pretty level fuel wsp wsc rest hf hwsp hwsc hrest
      obtain ⟨f, rfl⟩ : ∃ f, fuel = f + 1 := ⟨fuel - 1, by omega⟩
      cases vs with
      | nil => exact absurd rfl hne
      | cons v vs' =>
        have hneedv : need v ≤ f := by
          have : needE (v :: vs') = 1 + need v + needE vs' := rfl
          omega
        cases vs' with
        | nil =>
          rw [jsonEncElems_single]
          exact parseElems_last f _ v (wsc ++ ']' :: rest) rest
            (ihV v (by simp at hsz ⊢; omega) pretty level f wsp (wsc ++ ']' :: rest) hneedv hwsp
              (delimOk_ws_close wsc hwsc _ rest (by refine ⟨by decide, by decide, by decide, by decide⟩)))
            ((skipWs_append_ws _ hwsc).trans (skipWs_cons_not _ (by decide)))
        | cons w ws' =>
          rw [jsonEncElems_cons2,
            show wsp ++ ((jsonEnc pretty level v ++ ',' :: sepWs pretty level ++
                jsonEncElems pretty level (w :: ws')) ++ (wsc ++ ']' :: rest)) =
              wsp ++ (jsonEnc pretty level v ++ (',' :: (sepWs pretty level ++
                (jsonEncElems pretty level (w :: ws') ++ (wsc ++ ']' :: rest))))) from by simp]
          rw [parseElems_comma f _ v
              (',' :: (sepWs pretty level ++
                (jsonEncElems pretty level (w :: ws') ++ (wsc ++ ']' :: rest))))
              (sepWs pretty level ++
                (jsonEncElems pretty level (w :: ws') ++ (wsc ++ ']' :: rest)))
            (ihV v (by simp at hsz ⊢; omega) pretty level f wsp _ hneedv hwsp
              (by refine ⟨by decide, by decide, by decide, by decide⟩))
            (skipWs_cons_not _ (by decide))]
          rw [ihE (w :: ws') (by simp at hsz ⊢; omega) (by simp) pretty level f
            (sepWs pretty level) wsc rest
            (by
              have h1 : needE (v :: w :: ws') = 1 + need v + needE (w :: ws') := rfl
              omega)
            (allWs_sepWs pretty level) hwsc hrest]
          rfl

theorem parseVal_enc (v : Value) (pretty : Bool) (level : Nat) (fuel : Nat)
    (ws rest : List Char) (hf : need v ≤ fuel) (hws : AllWs ws) (hrest : delimOk rest) :
    parseVal fuel (ws ++ (jsonEnc pretty level v ++ rest)) = some (v, rest) :=
  (jsonRoundtripAux (sizeOf v)).1 v (by omega) pretty level fuel ws rest hf hws hrest

/- ### Fuel bounds in terms of artifact length -/

theorem sepWs_length_pos (p : Bool) (l : Nat) : 1 ≤ (sepWs p l).length := by
  cases p <;> simp [sepWs]

theorem jsonEncStr_length (k : String) : 2 ≤ (jsonEncStr k).length := by
  simp [jsonEncStr]

theorem needBoundAux (n : Nat) :
    (∀ v : Value, sizeOf v ≤ n → ∀ (p : Bool) (l : Nat),
      need v ≤ 2 * (jsonEnc p l v).length + 1) ∧
    (∀ es : List (String × Value), sizeOf es ≤ n → es ≠ [] → ∀ (p : Bool) (l : Nat),
      needM es ≤ 2 * (jsonEncMembers p l es).length + 2) ∧
    (∀ vs : List Value, sizeOf vs ≤ n → vs ≠ [] → ∀ (p : Bool) (l : Nat),
      needE vs ≤ 2 * (jsonEncElems p l vs).length + 2) := by
  induction n with
  | zero =>
    refine ⟨fun v hsz => absurd hsz (by have := value_sizeOf_pos v; omega),
      fun es hsz => absurd hsz (by have := list_sizeOf_pos es; omega),
      fun vs hsz => absurd hsz (by have := list_sizeOf_pos vs; omega)⟩
  | succ n ih =>
    obtain ⟨ihV, ihM, ihE⟩ := ih
    refine ⟨?_, ?_, ?_⟩
    · intro v hsz p l
      cases v with
      | null => simp [need, jsonEnc]
      | bool b => cases b <;> simp [need, jsonEnc]
      | int m =>
        have : 1 ≤ (jsonEnc p l (.int m)).length := by
          obtain ⟨c, tail, h1, _⟩ := intStr_data_cons m
          rw [show jsonEnc p l (.int m) = (intStr m).data from rfl, h1]
          simp
        simp only [need]
        omega
      | str s =>
        have : 2 ≤ (jsonEnc p l (.str s)).length := jsonEncStr_length s
        simp only [need]
        omega
      | dict es =>
        cases es with
        | nil => simp [need, needM, jsonEnc]
        | cons e es' =>
          have hm := ihM (e :: es') (by simp at hsz ⊢; omega) (by simp) p (l + 1)
          have hlen : (jsonEnc p l (.dict (e :: es'))).length =
              1 + (indentWs p (l + 1)).length + (jsonEncMembers p (l + 1) (e :: es')).length +
                (indentWs p l).length + 1 := by
            rw [show jsonEnc p l (.dict (e :: es')) =
              '\x7b' :: indentWs p (l + 1) ++ jsonEncMembers p (l + 1) (e :: es') ++
                indentWs p l ++ ['\x7d'] from rfl]
            simp
            omega
          rw [show need (.dict (e :: es')) = 3 + needM (e :: es') from rfl, hlen]
          omega
      | list items =>
        cases items with
        | nil => simp [need, needE, jsonEnc]
        | cons v vs =>
          have hm := ihE (v :: vs) (by simp at hsz ⊢; omega) (by simp) p (l + 1)
          have hlen : (jsonEnc p l (.list (v :: vs))).length =
              1 + (indentWs p (l + 1)).length + (jsonEncElems p (l + 1) (v :: vs)).length +
                (indentWs p l).length + 1 := by
            rw [show jsonEnc p l (.list (v :: vs)) =
              '[' :: indentWs p (l + 1) ++ jsonEncElems p (l + 1) (v :: vs) ++
                indentWs p l ++ [']'] from rfl]
            simp
            omega
          rw [show need (.list (v :: vs)) = 3 + needE (v :: vs) from rfl, hlen]
          omega
    · intro es hsz hne p l
      cases es with
      | nil => exact absurd rfl hne
      | cons e es' =>
        obtain ⟨k, v⟩ := e
        have hv := ihV v (by simp at hsz ⊢; omega) p l
        have hks := jsonEncStr_length k
        cases es' with
        | nil =>
          have hlen : (jsonEncMembers p l [(k, v)]).length =
              (jsonEncStr k).length + 2 + (jsonEnc p l v).length := by
            rw [jsonEncMembers_single]
            simp
            omega
          rw [show needM [(k, v)] = 1 + need v + 0 from rfl, hlen]
          omega
        | cons m ms =>
          have hms := ihM (m :: ms) (by simp at hsz ⊢; omega) (by simp) p l
          have hsep := sepWs_length_pos p l
          have hlen : (jsonEncMembers p l ((k, v) :: m :: ms)).length =
              (jsonEncStr k).length + 2 + (jsonEnc p l v).length + 1 + (sepWs p l).length +
                (jsonEncMembers p l (m :: ms)).length := by
            rw [jsonEncMembers_cons2]
            simp
            omega
          rw [show needM ((k, v) :: m :: ms) = 1 + need v + needM (m :: ms) from rfl, hlen]
          omega
    · intro vs hsz hne p l
      cases vs with
      | nil => exact absurd rfl hne
      | cons v vs' =>
        have hv := ihV v (by simp at hsz ⊢; omega) p l
        cases vs' with
        | nil =>
          rw [show needE [v] = 1 + need v + 0 from rfl, jsonEncElems_single]
          omega
        | cons w ws =>
          have hws := ihE (w :: ws) (by simp at hsz ⊢; omega) (by simp) p l
          have hsep := sepWs_length_pos p l
          have hlen : (jsonEncElems p l (v :: w :: ws)).length =
              (jsonEnc p l v).length + 1 + (sepWs p l).length +
                (jsonEncElems p l (w :: ws)).length := by
            rw [jsonEncElems_cons2]
            simp
            omega
          rw [show needE (v :: w :: ws) = 1 + need v + needE (w :: ws) from rfl, hlen]
          omega

theorem need_le_fuel (v : Value) (p : Bool) (l : Nat) :
    need v ≤ 2 * (jsonEnc p l v).length + 1 :=
  (needBoundAux (sizeOf v)).1 v (by omega) p l

/- ### `json.load` inverts `json.dump` -/

theorem jsonLoads_jsonDumps (pretty : Bool) (v : Value) :
    jsonLoads (jsonDumps pretty v) = some v := by
  unfold jsonLoads
  have hdata : (jsonDumps pretty v).data = jsonEnc pretty 0 v := rfl
  rw [hdata]
  have h := parseVal_enc v pretty 0 (2 * (jsonEnc pretty 0 v).length + 2) [] []
    (by have := need_le_fuel v pretty 0; omega)
    (by intro x hx; simp at hx)
    (by trivial)
  rw [show ([] : List Char) ++ (jsonEnc pretty 0 v ++ []) = jsonEnc pretty 0 v from by simp]
    at h
  rw [h]
  rfl

/- ### String equalities -/

theorem strEq_of_data (a b : String) (h : a.data = b.data) : a = b := by
  cases a
  cases b
  exact congrArg String.mk h

theorem strAppend_nil (s : String) : s ++ "" = s := by
  apply strEq_of_data
  rw [strData_append]
  simp [show ("" : String).data = [] from rfl]

theorem strAppend_assoc (a b c : String) : a ++ b ++ c = a ++ (b ++ c) := by
  apply strEq_of_data
  simp [strData_append]

theorem pyLower_append (a b : String) : pyLower (a ++ b) = pyLower a ++ pyLower b := by
  apply strEq_of_data
  simp [pyLower, strData_append]

theorem pyLower_json : pyLower ".json" = ".json" := rfl

theorem pyEndsWith_json_append (x : String) :
    pyEndsWith (pyLower (x ++ ".json")) ".json" = true := by
  rw [pyLower_append, pyLower_json]
  unfold pyEndsWith
  rw [strData_append]
  exact List.isSuffixOf_iff_suffix.mpr (List.suffix_append _ _)

theorem not_json_suffix_out (x : List Char) :
    (".json".data).isSuffixOf (x ++ "out".data) = false := by
  by_contra h
  rw [Bool.not_eq_false] at h
  obtain ⟨t, ht⟩ := List.isSuffixOf_iff_suffix.mp h
  have h1 : (x ++ "out".data).getLast? = some 't' := by
    rw [List.getLast?_append_of_ne_nil x (by decide)]
    decide
  have h2 : (x ++ "out".data).getLast? = some 'n' := by
    rw [← ht, List.getLast?_append_of_ne_nil t (by decide)]
    decide
  rw [h1] at h2
  simp at h2

theorem extFix_json_out (x : String) :
    extFix [".json"] ".json" (x ++ "out") = x ++ "out" ++ ".json" := by
  unfold extFix
  rw [if_neg]
  simp only [List.any_cons, List.any_nil, Bool.or_false]
  intro hcon
  rw [pyLower_append, show pyLower "out" = "out" from rfl] at hcon
  unfold pyEndsWith at hcon
  rw [strData_append] at hcon
  rw [not_json_suffix_out (pyLower x).data] at hcon
  exact absurd hcon (by simp)

theorem extFix_keeps (exts : List String) (append fn : String)
    (h : exts.any (fun e => pyEndsWith (pyLower fn) e) = true) :
    extFix exts append fn = fn := by
  unfold extFix
  rw [if_pos h]

theorem extFix_json_idem (fn : String) :
    extFix [".json"] ".json" (extFix [".json"] ".json" fn) = extFix [".json"] ".json" fn := by
  by_cases h : pyEndsWith (pyLower fn) ".json" = true
  · rw [extFix_keeps _ _ fn (by simp [h])]
    rw [extFix_keeps _ _ fn (by simp [h])]
  · have h2 : extFix [".json"] ".json" fn = fn ++ ".json" := by
      unfold extFix
      rw [if_neg (by simp [h])]
    rw [h2]
    exact extFix_keeps _ _ _ (by simp [pyEndsWith_json_append fn])

/- ### Claim C8 -/

/-- C8: for every value constructible from JSON-safe data, decoding the
artifact written by the JSON export reproduces a structurally equal value
(mapping and sequence order included), and the `pretty` flag changes only
the whitespace of the artifact, never the decoded result: both settings
decode to the same value.  The final conjunct records that
`export_to_json` writes exactly `jsonDumps pretty v` to the resolved
path. -/
theorem c8_json_round_trip :
    ∀ (v : Value) (pretty : Bool) (fn : String),
      jsonLoads (jsonDumps pretty v) = some v
      ∧ jsonLoads (jsonDumps true v) = jsonLoads (jsonDumps false v)
      ∧ export_to_json v fn pretty envOk =
          (.ok (abspath envOk.cwd (extFix [".json"] ".json" fn)),
           [.create (extFix [".json"] ".json" fn),
            .write (extFix [".json"] ".json" fn) (.text (jsonDumps pretty v))]) := by
  intro v pretty fn
  refine ⟨jsonLoads_jsonDumps pretty v, ?_, rfl⟩
  rw [jsonLoads_jsonDumps true v, jsonLoads_jsonDumps false v]

/- ### Claim C9 -/

theorem markdownSeq_cons (item : Value) (rest : List Value) (level : Nat) :
    markdownSeq (item :: rest) level = markdownItem level item ++ markdownSeq rest level := by
  cases item <;> rfl

theorem markdownSeq_join (items : List Value) (level : Nat) :
    markdownSeq items level = strJoin (items.map (markdownItem level)) := by
  induction items with
  | nil => rfl
  | cons item rest ih =>
    rw [markdownSeq_cons, ih]
    rfl

/-- C9: in Markdown rendering, a sequence mixing dictionary and
non-dictionary items is handled per element in the sequence's original
order: each dictionary item is recursed into as a nested section at the
next level, and every other item becomes its own bullet line. -/
theorem c9_markdown_mixed_sequence :
    ∀ (k : String) (items : List Value) (level : Nat),
      dict_to_markdown [(k, .list items)] level =
        (⟨List.replicate (level + 1) '#'⟩ : String) ++ " " ++ k ++ "\n\n" ++
          strJoin (items.map (markdownItem level)) ++ "\n"
      ∧ (∀ es, markdownItem level (.dict es) = dict_to_markdown es (level + 1))
      ∧ (∀ b n s, markdownItem level (.bool b) = "- " ++ pyStr (.bool b) ++ "\n"
          ∧ markdownItem level (.int n) = "- " ++ pyStr (.int n) ++ "\n"
          ∧ markdownItem level (.str s) = "- " ++ pyStr (.str s) ++ "\n") := by
  intro k items level
  refine ⟨?_, fun es => rfl, fun b n s => ⟨rfl, rfl, rfl⟩⟩
  rw [show dict_to_markdown [(k, .list items)] level =
    (⟨List.replicate (level + 1) '#'⟩ : String) ++ " " ++ k ++ "\n\n" ++
      (markdownSeq items level ++ "\n") ++ "" from rfl]
  rw [strAppend_nil, markdownSeq_join]
  apply strEq_of_data
  simp [strData_append]

/- ### Claim C7 -/

/-- C7 (amended): in HTML rendering of a mapping entry whose value is a
sequence: if every item is a dictionary and the sequence is non-empty, a
table is rendered whose header row is the first item's key order and whose
body rows project each item positionally with missing keys as empty cells;
if some item is not a dictionary, an unordered list with one item per
element is rendered; but an empty sequence renders nothing at all (no
table and no list). -/
theorem c7_html_sequence_rendering :
    ∀ (k : String) (items : List Value) (level : Nat),
      (∀ first rest', items = first :: rest' → items.all Value.isDict = true →
        dict_to_html [(k, .list items)] level =
          "<h" ++ natStr (level + 1) ++ ">" ++ k ++ "</h" ++ natStr (level + 1) ++ ">\n" ++
            ("<table>\n<tr>\n" ++
              strJoin ((dictKeys (entriesOf first)).map (fun h => "<th>" ++ h ++ "</th>\n")) ++
              "</tr>\n" ++
              strJoin (items.map (fun item =>
                "<tr>\n" ++ strJoin ((dictKeys (entriesOf first)).map (fun h =>
                  "<td>" ++ htmlCell (entriesOf item) h ++ "</td>\n")) ++ "</tr>\n")) ++
              "</table>\n"))
      ∧ (items.all Value.isDict = false →
        dict_to_html [(k, .list items)] level =
          "<h" ++ natStr (level + 1) ++ ">" ++ k ++ "</h" ++ natStr (level + 1) ++ ">\n" ++
            ("<ul>\n" ++
              strJoin (items.map (fun item => "<li>" ++ pyStr item ++ "</li>\n")) ++
              "</ul>\n"))
      ∧ (items = [] →
        dict_to_html [(k, .list items)] level =
          "<h" ++ natStr (level + 1) ++ ">" ++ k ++ "</h" ++ natStr (level + 1) ++ ">\n") := by
  intro k items level
  have hopen : dict_to_html [(k, .list items)] level =
      "<h" ++ natStr (level + 1) ++ ">" ++ k ++ "</h" ++ natStr (level + 1) ++ ">\n" ++
        htmlValue (.list items) level ++ "" := rfl
  refine ⟨?_, ?_, ?_⟩
  · intro first rest' hitems hall
    subst hitems
    have hv : htmlValue (.list (first :: rest')) level =
        "<table>\n<tr>\n" ++
          strJoin ((dictKeys (entriesOf first)).map (fun h => "<th>" ++ h ++ "</th>\n")) ++
          "</tr>\n" ++
          strJoin ((first :: rest').map (fun item =>
            "<tr>\n" ++ strJoin ((dictKeys (entriesOf first)).map (fun h =>
              "<td>" ++ htmlCell (entriesOf item) h ++ "</td>\n")) ++ "</tr>\n")) ++
          "</table>\n" := by
      rw [show htmlValue (.list (first :: rest')) level =
        (if (first :: rest').all Value.isDict then
          "<table>\n<tr>\n" ++
            strJoin ((dictKeys (entriesOf first)).map (fun h => "<th>" ++ h ++ "</th>\n")) ++
            "</tr>\n" ++
            strJoin ((first :: rest').map (fun item =>
              "<tr>\n" ++ strJoin ((dictKeys (entriesOf first)).map (fun h =>
                "<td>" ++ htmlCell (entriesOf item) h ++ "</td>\n")) ++ "</tr>\n")) ++
            "</table>\n"
        else
          "<ul>\n" ++
            strJoin ((first :: rest').map (fun item => "<li>" ++ pyStr item ++ "</li>\n")) ++
            "</ul>\n") from rfl]
      rw [if_pos hall]
    rw [hopen, hv, strAppend_nil]
  · intro hall
    have hv : htmlValue (.list items) level =
        "<ul>\n" ++ strJoin (items.map (fun item => "<li>" ++ pyStr item ++ "</li>\n")) ++
          "</ul>\n" := by
      cases items with
      | nil => simp [List.all_nil] at hall
      | cons first rest' =>
        rw [show htmlValue (.list (first :: rest')) level =
          (if (first :: rest').all Value.isDict then
            "<table>\n<tr>\n" ++
              strJoin ((dictKeys (entriesOf first)).map (fun h => "<th>" ++ h ++ "</th>\n")) ++
              "</tr>\n" ++
              strJoin ((first :: rest').map (fun item =>
                "<tr>\n" ++ strJoin ((dictKeys (entriesOf first)).map (fun h =>
                  "<td>" ++ htmlCell (entriesOf item) h ++ "</td>\n")) ++ "</tr>\n")) ++
              "</table>\n"
          else
            "<ul>\n" ++
              strJoin ((first :: rest').map (fun item => "<li>" ++ pyStr item ++ "</li>\n")) ++
              "</ul>\n") from rfl]
        rw [if_neg (by simp [hall])]
    rw [hopen, hv, strAppend_nil]
  · intro hitems
    subst hitems
    rw [hopen]
    rw [show htmlValue (.list []) level = "" from rfl]
    rw [strAppend_nil, strAppend_nil]

/-- C7 counterexample: the claim as stated requires an unordered list for
the empty sequence, but the code renders nothing after the heading. -/
theorem c7_counterexample :
    dict_to_html [("k", .list [])] 1 = "<h2>k</h2>\n"
    ∧ "<h2>k</h2>\n" ≠ "<h2>k</h2>\n<ul>\n</ul>\n" := by
  constructor
  · decide
  · decide

theorem c7_html_sequence_rendering_witness :
    (dict_to_html [("k", .list [.dict [("a", .int 1)], .dict [("b", .int 2)]])] 1 =
      "<h2>k</h2>\n" ++
        ("<table>\n<tr>\n" ++ "<th>a</th>\n" ++ "</tr>\n" ++
          ("<tr>\n" ++ "<td>1</td>\n" ++ "</tr>\n" ++ ("<tr>\n" ++ "<td></td>\n" ++ "</tr>\n" ++ "")) ++
          "</table>\n"))
    ∧ (dict_to_html [("k", .list [.int 1, .dict [("a", .int 1)]])] 1 =
      "<h2>k</h2>\n" ++
        ("<ul>\n" ++ ("<li>1</li>\n" ++ ("<li>" ++ pyStr (.dict [("a", .int 1)]) ++ "</li>\n" ++ "")) ++
          "</ul>\n"))
    ∧ (dict_to_html [("k", .list [])] 1 = "<h2>k</h2>\n") := by
  refine ⟨?_, ?_, ?_⟩
  · have h := (c7_html_sequence_rendering "k" [.dict [("a", .int 1)], .dict [("b", .int 2)]] 1).1
      (.dict [("a", .int 1)]) [.dict [("b", .int 2)]] rfl (by decide)
    rw [h]
    decide
  · have h := (c7_html_sequence_rendering "k" [.int 1, .dict [("a", .int 1)]] 1).2.1 (by decide)
    rw [h]
    decide
  · exact (c7_html_sequence_rendering "k" [] 1).2.2 rfl

/- ### Claim C1 -/

theorem dictToRow_ok (fieldnames : List String) (r : List (String × Value))
    (h : wrongFields fieldnames r = []) :
    dictToRow fieldnames r = .ok (fieldnames.map (fun k => csvRenderCell (dictLookup k r))) := by
  unfold dictToRow
  rw [if_pos h]

theorem dictToRow_err (fieldnames : List String) (r : List (String × Value))
    (h : wrongFields fieldnames r ≠ []) :
    dictToRow fieldnames r = .error (.valueError ("dict contains fields not in fieldnames: " ++
      strJoinSep ", " ((wrongFields fieldnames r).map pyStrRepr))) := by
  unfold dictToRow
  rw [if_neg h]

theorem writeRows_ok (hs : List String) (rows : List (List (String × Value)))
    (h : ∀ rec ∈ rows, wrongFields hs rec = []) :
    writeRows hs rows =
      (strJoin (rows.map (fun rec =>
        csvRow (hs.map (fun k => csvRenderCell (dictLookup k rec))))), none) := by
  induction rows with
  | nil => rfl
  | cons r rs ih =>
    rw [writeRows, dictToRow_ok hs r (h r (by simp)), ih (fun rec hrec => h rec (by simp [hrec]))]
    rfl

theorem writeRows_err (hs : List String) (rows : List (List (String × Value)))
    (h : ∃ rec ∈ rows, wrongFields hs rec ≠ []) :
    ∃ m, (writeRows hs rows).2 = some (.valueError m) := by
  induction rows with
  | nil => simp at h
  | cons r rs ih =>
    by_cases hw : wrongFields hs r = []
    · obtain ⟨rec, hmem, hne⟩ := h
      have hrs : ∃ rec ∈ rs, wrongFields hs rec ≠ [] := by
        rcases List.mem_cons.mp hmem with hr | hr
        · subst hr
          exact absurd hw hne
        · exact ⟨rec, hr, hne⟩
      obtain ⟨m, hm⟩ := ih hrs
      refine ⟨m, ?_⟩
      rw [writeRows, dictToRow_ok hs r hw]
      cases hwr : writeRows hs rs with
      | mk body err =>
        rw [hwr] at hm
        simpa using hm
    · refine ⟨"dict contains fields not in fieldnames: " ++
        strJoinSep ", " ((wrongFields hs r).map pyStrRepr), ?_⟩
      rw [writeRows, dictToRow_err hs r hw]

/-- C1 (amended): exporting a non-empty record list to CSV without an
explicit header list derives the header row from the first record's key
order and renders every record positionally against it, with a record
missing a header key rendering an empty cell; but a record with keys not
in the header does not have them dropped — the `csv` module raises, and
the export fails with an `ExportError` chaining the `ValueError`; and
when the first record is the empty mapping the derived header list is
empty (falsy), so the export writes an empty file and succeeds with no
header row and no per-record rendering or checking at all. -/
theorem c1_csv_header_from_first_record :
    ∀ (r : List (String × Value)) (rs : List (List (String × Value))) (fn : String)
      (env : Env),
      env.openError (extFix [".csv"] ".csv" fn) = none →
      (r = [] →
        export_to_csv (r :: rs) fn none env =
          (.ok (abspath env.cwd (extFix [".csv"] ".csv" fn)),
           [.create (extFix [".csv"] ".csv" fn),
            .write (extFix [".csv"] ".csv" fn) (.text "")]))
      ∧ (r ≠ [] →
        ((∀ rec ∈ r :: rs, wrongFields (dictKeys r) rec = []) →
          export_to_csv (r :: rs) fn none env =
            (.ok (abspath env.cwd (extFix [".csv"] ".csv" fn)),
             [.create (extFix [".csv"] ".csv" fn),
              .write (extFix [".csv"] ".csv" fn) (.text (csvRow (dictKeys r) ++
                strJoin ((r :: rs).map (fun rec =>
                  csvRow ((dictKeys r).map (fun k => csvRenderCell (dictLookup k rec)))))))]))
        ∧ ((∃ rec ∈ r :: rs, wrongFields (dictKeys r) rec ≠ []) →
          ∃ m, (export_to_csv (r :: rs) fn none env).1 =
            .error (.exportError ("Failed to export data to CSV: " ++ m)
              (some (.valueError m))))) := by
  intro r rs fn env hopen
  constructor
  · intro hr
    subst hr
    unfold export_to_csv
    dsimp only [dictKeys, List.map]
    rw [hopen]
  intro hne
  obtain ⟨⟨k0, v0⟩, r', rfl⟩ : ∃ a b, r = a :: b := by
    cases r with
    | nil => exact absurd rfl hne
    | cons a b => exact ⟨a, b, rfl⟩
  constructor
  · intro hsub
    unfold export_to_csv
    dsimp only [dictKeys, List.map]
    rw [hopen]
    rw [writeRows_ok (k0 :: List.map (fun kv => kv.1) r') (((k0, v0) :: r') :: rs) (by
      intro rec hrec
      exact hsub rec hrec)]
    rfl
  · intro hex
    obtain ⟨m, hm⟩ := writeRows_err (k0 :: List.map (fun kv => kv.1) r')
      (((k0, v0) :: r') :: rs) (by exact hex)
    refine ⟨m, ?_⟩
    unfold export_to_csv
    dsimp only [dictKeys, List.map]
    rw [hopen]
    cases hwr : writeRows (k0 :: List.map (fun kv => kv.1) r') (((k0, v0) :: r') :: rs) with
    | mk body err =>
      rw [hwr] at hm
      simp at hm
      subst hm
      rfl

/-- C1 counterexample: on the spec's own example the export does not
succeed with the extra key dropped — it fails. -/
theorem c1_counterexample :
    (export_to_csv [[("a", .int 1), ("b", .int 2)], [("a", .int 3), ("c", .int 4)]]
        "t" none envOk).1 =
      .error (.exportError
        "Failed to export data to CSV: dict contains fields not in fieldnames: 'c'"
        (some (.valueError "dict contains fields not in fieldnames: 'c'"))) := rfl

theorem c1_csv_header_from_first_record_witness :
    (export_to_csv [[], [("a", .int 1)]] "t" none envOk =
      (.ok (abspath envOk.cwd (extFix [".csv"] ".csv" "t")),
       [.create (extFix [".csv"] ".csv" "t"),
        .write (extFix [".csv"] ".csv" "t") (.text "")]))
    ∧ (export_to_csv [[("a", .int 1), ("b", .int 2)], [("a", .int 3)]] "t" none envOk =
      (.ok (abspath envOk.cwd (extFix [".csv"] ".csv" "t")),
       [.create (extFix [".csv"] ".csv" "t"),
        .write (extFix [".csv"] ".csv" "t")
          (.text (csvRow (dictKeys [("a", Value.int 1), ("b", Value.int 2)]) ++
            strJoin (([[("a", Value.int 1), ("b", Value.int 2)],
                [("a", Value.int 3)]]).map (fun rec =>
              csvRow ((dictKeys [("a", Value.int 1), ("b", Value.int 2)]).map
                (fun k => csvRenderCell (dictLookup k rec)))))))]))
    ∧ (∃ m, (export_to_csv [[("a", .int 1), ("b", .int 2)], [("a", .int 3), ("c", .int 4)]]
        "t" none envOk).1 =
      .error (.exportError ("Failed to export data to CSV: " ++ m)
        (some (.valueError m)))) := by
  refine ⟨?_, ?_, ?_⟩
  · exact (c1_csv_header_from_first_record [] [[("a", .int 1)]] "t" envOk rfl).1 rfl
  · exact ((c1_csv_header_from_first_record [("a", .int 1), ("b", .int 2)] [[("a", .int 3)]]
      "t" envOk rfl).2 (by simp)).1 (by decide)
  · exact ((c1_csv_header_from_first_record [("a", .int 1), ("b", .int 2)]
      [[("a", .int 3), ("c", .int 4)]] "t" envOk rfl).2 (by simp)).2 (by decide)

/- ### Dispatcher plumbing -/

theorem wrapResult_error_isExport (fmt : String) (r : Except PyExc String) (e : PyExc)
    (h : wrapResult fmt r = .error e) : e.isExportError = true := by
  cases r with
  | ok p => simp [wrapResult] at h
  | error e' =>
    simp only [wrapResult] at h
    by_cases he : e'.isExportError = true
    · rw [if_pos he] at h
      injection h with h2
      subst h2
      exact he
    · rw [if_neg he] at h
      injection h with h2
      subst h2
      rfl

theorem export_data_dir (data : Value) (filename : String) (format : Option String)
    (cfg : ExportConfig) (env : Env)
    (hcond : cfg.output_dir ≠ "" ∧ ¬ isabs filename = true)
    (hmk : env.mkdirError cfg.output_dir = none) :
    export_data data filename format cfg env =
      (wrapResult (resolveFormat format filename cfg)
        (dispatchFormat data (joinPath cfg.output_dir filename)
          (resolveFormat format filename cfg) env).1,
       Effect.mkdir cfg.output_dir ::
         (dispatchFormat data (joinPath cfg.output_dir filename)
           (resolveFormat format filename cfg) env).2) := by
  unfold export_data
  rw [if_pos hcond, hmk]

theorem export_data_nodir (data : Value) (filename : String) (format : Option String)
    (cfg : ExportConfig) (env : Env)
    (hcond : ¬ (cfg.output_dir ≠ "" ∧ ¬ isabs filename = true)) :
    export_data data filename format cfg env =
      (wrapResult (resolveFormat format filename cfg)
        (dispatchFormat data filename (resolveFormat format filename cfg) env).1,
       (dispatchFormat data filename (resolveFormat format filename cfg) env).2) := by
  unfold export_data
  rw [if_neg hcond]

theorem export_data_mkdir_fail (data : Value) (filename : String) (format : Option String)
    (cfg : ExportConfig) (env : Env) (e : PyExc)
    (hcond : cfg.output_dir ≠ "" ∧ ¬ isabs filename = true)
    (hmk : env.mkdirError cfg.output_dir = some e) :
    export_data data filename format cfg env = (.error e, []) := by
  unfold export_data
  rw [if_pos hcond, hmk]

/- ### Claim C2 -/

theorem wrapResult_error_cases (fmt : String) (r : Except PyExc String) (e : PyExc)
    (h : wrapResult fmt r = .error e) :
    e.isExportError = true
    ∧ ∃ e0, (e = e0 ∧ e0.isExportError = true)
        ∨ (e0.isExportError = false
           ∧ e = .exportError ("Failed to export data to " ++ fmt ++ ": " ++ excStr e0)
               (some e0)) := by
  cases r with
  | ok p => simp [wrapResult] at h
  | error e0 =>
    simp only [wrapResult] at h
    by_cases he : e0.isExportError = true
    · rw [if_pos he] at h
      injection h with h2
      subst h2
      exact ⟨he, e0, .inl ⟨rfl, he⟩⟩
    · rw [if_neg he] at h
      injection h with h2
      subst h2
      rw [Bool.not_eq_true] at he
      exact ⟨rfl, e0, .inr ⟨he, rfl⟩⟩

theorem export_to_json_openFail (v : Value) (fn : String) (pretty : Bool) (env : Env)
    (e0 : PyExc) (h : env.openError (extFix [".json"] ".json" fn) = some e0) :
    export_to_json v fn pretty env =
      (.error (.exportError ("Failed to export data to JSON: " ++ excStr e0) (some e0)),
       []) := by
  rw [show export_to_json v fn pretty env =
      (match env.openError (extFix [".json"] ".json" fn) with
       | some e =>
         (.error (.exportError ("Failed to export data to JSON: " ++ excStr e) (some e)), [])
       | none =>
         (.ok (abspath env.cwd (extFix [".json"] ".json" fn)),
          [.create (extFix [".json"] ".json" fn),
           .write (extFix [".json"] ".json" fn) (.text (jsonDumps pretty v))]))
    from rfl]
  rw [h]

/-- C2 (amended): once the output directory step has succeeded, every
failure of `export_data` surfaces as the engine's `ExportError`, and the
error is either an `ExportError` raised inside the dispatch and re-raised
unchanged or the dispatcher's wrapper around the raw failure with the
original attached as chained cause; concretely, a raw filesystem error
while opening the JSON output file surfaces as an `ExportError` carrying
that error's text and the error itself as chained cause. A filesystem
error raised during output-directory creation, by contrast, happens
outside the `try` block and escapes unwrapped. -/
theorem c2_dispatch_errors_wrapped :
    (∀ (data : Value) (fn : String) (format : Option String) (cfg : ExportConfig)
        (env : Env),
      env.mkdirError cfg.output_dir = none →
      ∀ e, (export_data data fn format cfg env).1 = .error e →
        e.isExportError = true
        ∧ ∃ e0, (e = e0 ∧ e0.isExportError = true)
            ∨ (e0.isExportError = false
               ∧ e = .exportError ("Failed to export data to "
                   ++ resolveFormat format fn cfg ++ ": " ++ excStr e0) (some e0)))
    ∧ (∀ (v : Value) (e0 : PyExc) (env : Env),
      env.mkdirError cfgDefault.output_dir = none →
      env.openError (joinPath cfgDefault.output_dir "f.json") = some e0 →
      (export_data v "f.json" (some "json") cfgDefault env).1 =
        .error (.exportError ("Failed to export data to JSON: " ++ excStr e0)
          (some e0))) := by
  constructor
  · intro data fn format cfg env hmk e h
    by_cases hcond : cfg.output_dir ≠ "" ∧ ¬ isabs fn = true
    · rw [export_data_dir data fn format cfg env hcond hmk] at h
      exact wrapResult_error_cases _ _ _ h
    · rw [export_data_nodir data fn format cfg env hcond] at h
      exact wrapResult_error_cases _ _ _ h
  · intro v e0 env hmk hopen
    rw [export_data_dir v "f.json" (some "json") cfgDefault env ⟨by decide, by decide⟩ hmk]
    rw [show resolveFormat (some "json") "f.json" cfgDefault = "json" from rfl]
    rw [show dispatchFormat v (joinPath cfgDefault.output_dir "f.json") "json" env =
        export_to_json v (joinPath cfgDefault.output_dir "f.json") true env from rfl]
    rw [export_to_json_openFail v (joinPath cfgDefault.output_dir "f.json") true env e0 (by
      rw [show extFix [".json"] ".json" (joinPath cfgDefault.output_dir "f.json") =
          joinPath cfgDefault.output_dir "f.json" from rfl]
      exact hopen)]
    rfl

/-- C2 counterexample: a failure of `os.makedirs` while creating the
output directory escapes `export_data` as the raw `OSError`, not as an
`ExportError`. -/
theorem c2_counterexample :
    (export_data (.int 0) "f" (some "json") cfgDefault
        ⟨"/cwd", fun _ => some (.osError "File exists: './output'"), fun _ => none⟩).1 =
      .error (.osError "File exists: './output'")
    ∧ (PyExc.osError "File exists: './output'").isExportError = false :=
  ⟨rfl, rfl⟩

theorem c2_dispatch_errors_wrapped_witness :
    ((PyExc.exportError "XML export requires a dictionary" none).isExportError = true
      ∧ ∃ e0, (PyExc.exportError "XML export requires a dictionary" none = e0
            ∧ e0.isExportError = true)
          ∨ (e0.isExportError = false
             ∧ PyExc.exportError "XML export requires a dictionary" none
               = .exportError ("Failed to export data to "
                   ++ resolveFormat (some "xml") "bad" cfgDefault ++ ": " ++ excStr e0)
                 (some e0)))
    ∧ (export_data (.int 0) "f.json" (some "json") cfgDefault
          ⟨"/cwd", fun _ => none, fun _ => some (.osError "Permission denied")⟩).1 =
        .error (.exportError
          ("Failed to export data to JSON: " ++ excStr (.osError "Permission denied"))
          (some (.osError "Permission denied"))) :=
  ⟨c2_dispatch_errors_wrapped.1 (.int 0) "bad" (some "xml") cfgDefault envOk rfl
      (.exportError "XML export requires a dictionary" none) rfl,
   c2_dispatch_errors_wrapped.2 (.int 0) (.osError "Permission denied")
      ⟨"/cwd", fun _ => none, fun _ => some (.osError "Permission denied")⟩ rfl rfl⟩

/- ### Claim C3 -/

theorem dispatchFormat_xml_shape (data : Value) (fn : String) (env : Env)
    (h : data.isDict = false) :
    dispatchFormat data fn "xml" env =
      (.error (.exportError "XML export requires a dictionary" none), []) := by
  cases data with
  | dict es => simp [Value.isDict] at h
  | null => rfl
  | bool b => rfl
  | int n => rfl
  | str s => rfl
  | list items => rfl

/-- C3: exporting any non-dictionary value with the XML format fails with
the shape error naming the dictionary (Mapping) requirement, raised by the
dispatcher before the XML codec runs: no file is created or written by the
call (only the output directory may have been ensured). -/
theorem c3_xml_shape_error :
    ∀ (data : Value) (fn : String) (cfg : ExportConfig) (env : Env),
      data.isDict = false →
      env.mkdirError cfg.output_dir = none →
      (export_data data fn (some "xml") cfg env).1 =
        .error (.exportError "XML export requires a dictionary" none)
      ∧ ((export_data data fn (some "xml") cfg env).2.filter isFileEffect) = [] := by
  intro data fn cfg env hd hmk
  by_cases hcond : cfg.output_dir ≠ "" ∧ ¬ isabs fn = true
  · rw [export_data_dir data fn (some "xml") cfg env hcond hmk]
    rw [show resolveFormat (some "xml") fn cfg = "xml" from rfl]
    rw [dispatchFormat_xml_shape data _ env hd]
    exact ⟨rfl, rfl⟩
  · rw [export_data_nodir data fn (some "xml") cfg env hcond]
    rw [show resolveFormat (some "xml") fn cfg = "xml" from rfl]
    rw [dispatchFormat_xml_shape data fn env hd]
    exact ⟨rfl, rfl⟩

theorem c3_xml_shape_error_witness :
    (export_data (.list [.int 1, .int 2, .int 3]) "bad" (some "xml") cfgDefault envOk).1 =
      .error (.exportError "XML export requires a dictionary" none)
    ∧ ((export_data (.list [.int 1, .int 2, .int 3]) "bad" (some "xml") cfgDefault
        envOk).2.filter isFileEffect) = [] :=
  c3_xml_shape_error (.list [.int 1, .int 2, .int 3]) "bad" cfgDefault envOk rfl rfl

/- ### Claim C10 -/

theorem dispatchFormat_csv_shape (data : Value) (fn : String) (env : Env)
    (h : isRecordList data = false) :
    dispatchFormat data fn "csv" env =
      (.error (.exportError "CSV export requires a list of dictionaries" none), []) := by
  rw [show dispatchFormat data fn "csv" env =
      (if isRecordList data then export_to_csv (recordsOf (itemsOf data)) fn none env
       else (.error (.exportError "CSV export requires a list of dictionaries" none), []))
    from rfl]
  rw [if_neg (by simp [h])]

theorem dispatchFormat_xlsx_shape (data : Value) (fn : String) (env : Env)
    (h : isRecordList data = false) :
    dispatchFormat data fn "xlsx" env =
      (.error (.exportError "Excel export requires a list of dictionaries" none), []) := by
  rw [show dispatchFormat data fn "xlsx" env =
      (if isRecordList data then export_to_excel (recordsOf (itemsOf data)) fn "Data" env
       else (.error (.exportError "Excel export requires a list of dictionaries" none), []))
    from rfl]
  rw [if_neg (by simp [h])]

theorem dispatchFormat_excel_shape (data : Value) (fn : String) (env : Env)
    (h : isRecordList data = false) :
    dispatchFormat data fn "excel" env =
      (.error (.exportError "Excel export requires a list of dictionaries" none), []) := by
  rw [show dispatchFormat data fn "excel" env =
      (if isRecordList data then export_to_excel (recordsOf (itemsOf data)) fn "Data" env
       else (.error (.exportError "Excel export requires a list of dictionaries" none), []))
    from rfl]
  rw [if_neg (by simp [h])]

theorem dispatchFormat_db_shape (data : Value) (fn : String) (env : Env)
    (h : isRecordList data = false) :
    dispatchFormat data fn "db" env =
      (.error (.exportError "SQLite export requires a list of dictionaries" none), []) := by
  rw [show dispatchFormat data fn "db" env =
      (if isRecordList data then export_to_sqlite (recordsOf (itemsOf data)) fn "data" env
       else (.error (.exportError "SQLite export requires a list of dictionaries" none), []))
    from rfl]
  rw [if_neg (by simp [h])]

theorem dispatchFormat_sqlite_shape (data : Value) (fn : String) (env : Env)
    (h : isRecordList data = false) :
    dispatchFormat data fn "sqlite" env =
      (.error (.exportError "SQLite export requires a list of dictionaries" none), []) := by
  rw [show dispatchFormat data fn "sqlite" env =
      (if isRecordList data then export_to_sqlite (recordsOf (itemsOf data)) fn "data" env
       else (.error (.exportError "SQLite export requires a list of dictionaries" none), []))
    from rfl]
  rw [if_neg (by simp [h])]

theorem dispatchFormat_md_shape (data : Value) (fn : String) (env : Env)
    (h : data.isDict = false) :
    dispatchFormat data fn "md" env =
      (.error (.exportError "Markdown export requires a dictionary" none), []) := by
  cases data with
  | dict es => simp [Value.isDict] at h
  | null => rfl
  | bool b => rfl
  | int n => rfl
  | str s => rfl
  | list items => rfl

theorem dispatchFormat_markdown_shape (data : Value) (fn : String) (env : Env)
    (h : data.isDict = false) :
    dispatchFormat data fn "markdown" env =
      (.error (.exportError "Markdown export requires a dictionary" none), []) := by
  cases data with
  | dict es => simp [Value.isDict] at h
  | null => rfl
  | bool b => rfl
  | int n => rfl
  | str s => rfl
  | list items => rfl

theorem dispatchFormat_html_shape (data : Value) (fn : String) (env : Env)
    (h : data.isDict = false) :
    dispatchFormat data fn "html" env =
      (.error (.exportError "HTML export requires a dictionary" none), []) := by
  cases data with
  | dict es => simp [Value.isDict] at h
  | null => rfl
  | bool b => rfl
  | int n => rfl
  | str s => rfl
  | list items => rfl

theorem dispatchFormat_shape_fail (data : Value) (fn : String) (fmt : String) (env : Env)
    (h : ((fmt = "csv" ∨ fmt = "xlsx" ∨ fmt = "excel" ∨ fmt = "db" ∨ fmt = "sqlite")
            ∧ isRecordList data = false)
       ∨ ((fmt = "xml" ∨ fmt = "md" ∨ fmt = "markdown" ∨ fmt = "html")
            ∧ data.isDict = false)) :
    ∃ m, dispatchFormat data fn fmt env = (.error (.exportError m none), []) := by
  rcases h with ⟨hf, hd⟩ | ⟨hf, hd⟩
  · rcases hf with rfl | rfl | rfl | rfl | rfl
    · exact ⟨_, dispatchFormat_csv_shape data fn env hd⟩
    · exact ⟨_, dispatchFormat_xlsx_shape data fn env hd⟩
    · exact ⟨_, dispatchFormat_excel_shape data fn env hd⟩
    · exact ⟨_, dispatchFormat_db_shape data fn env hd⟩
    · exact ⟨_, dispatchFormat_sqlite_shape data fn env hd⟩
  · rcases hf with rfl | rfl | rfl | rfl
    · exact ⟨_, dispatchFormat_xml_shape data fn env hd⟩
    · exact ⟨_, dispatchFormat_md_shape data fn env hd⟩
    · exact ⟨_, dispatchFormat_markdown_shape data fn env hd⟩
    · exact ⟨_, dispatchFormat_html_shape data fn env hd⟩

/-- C10: when the resolved format's shape precondition fails (no record
list for csv/xlsx/excel/db/sqlite, no dictionary for xml/md/markdown/html),
`export_data` returns a shape `ExportError` and performs no file effect at
the output path — at most the output directory was created. -/
theorem c10_no_file_on_shape_violation :
    ∀ (data : Value) (fn : String) (format : Option String) (cfg : ExportConfig) (env : Env),
      env.mkdirError cfg.output_dir = none →
      ((resolveFormat format fn cfg = "csv" ∨ resolveFormat format fn cfg = "xlsx"
          ∨ resolveFormat format fn cfg = "excel" ∨ resolveFormat format fn cfg = "db"
          ∨ resolveFormat format fn cfg = "sqlite")
        ∧ isRecordList data = false)
      ∨ ((resolveFormat format fn cfg = "xml" ∨ resolveFormat format fn cfg = "md"
          ∨ resolveFormat format fn cfg = "markdown" ∨ resolveFormat format fn cfg = "html")
        ∧ data.isDict = false) →
      (∃ m, (export_data data fn format cfg env).1 = .error (.exportError m none))
      ∧ ((export_data data fn format cfg env).2.filter isFileEffect) = [] := by
  intro data fn format cfg env hmk h
  obtain ⟨mdir, hdir⟩ := dispatchFormat_shape_fail data (joinPath cfg.output_dir fn)
    (resolveFormat format fn cfg) env h
  obtain ⟨mnod, hnod⟩ := dispatchFormat_shape_fail data fn (resolveFormat format fn cfg) env h
  by_cases hcond : cfg.output_dir ≠ "" ∧ ¬ isabs fn = true
  · rw [export_data_dir data fn format cfg env hcond hmk, hdir]
    exact ⟨⟨mdir, rfl⟩, rfl⟩
  · rw [export_data_nodir data fn format cfg env hcond, hnod]
    exact ⟨⟨mnod, rfl⟩, rfl⟩

theorem c10_no_file_on_shape_violation_witness :
    (∃ m, (export_data (.int 5) "t" (some "csv") cfgDefault envOk).1 =
        .error (.exportError m none))
    ∧ ((export_data (.int 5) "t" (some "csv") cfgDefault envOk).2.filter isFileEffect) = [] :=
  c10_no_file_on_shape_violation (.int 5) "t" (some "csv") cfgDefault envOk rfl
    (.inl ⟨.inl rfl, rfl⟩)

/- ### Claim C4 -/

/-- C4 (amended): only a format token inferred from the filename extension
is normalized (lowercased with the leading dot stripped, so `.CSV`, `.Md`,
`.XLSX` resolve to `csv`, `md`, `xlsx`); an explicitly supplied format
argument is matched verbatim, so explicit `"CSV"` does not resolve to the
CSV codec but fails as an unsupported format. -/
theorem c4_format_token_normalization :
    ∀ (data : Value) (cfg : ExportConfig) (f fn : String),
      resolveFormat none "f.CSV" cfg = "csv"
      ∧ resolveFormat none "f.Md" cfg = "md"
      ∧ resolveFormat none "report.XLSX" cfg = "xlsx"
      ∧ resolveFormat (some f) fn cfg = f
      ∧ (export_data data "/abs/f" (some "CSV") cfgDefault envOk).1 =
          .error (.exportError "Unsupported export format: CSV" none) := by
  intro data cfg f fn
  refine ⟨rfl, rfl, rfl, rfl, ?_⟩
  rfl

/-- C4 counterexample: with an explicit uppercase token the dispatcher
fails as unsupported, while the lowercase token exports successfully — the
explicit format argument is not case-normalized. -/
theorem c4_counterexample :
    (export_data (.list []) "/abs/f" (some "CSV") cfgDefault envOk).1 =
      .error (.exportError "Unsupported export format: CSV" none)
    ∧ (export_data (.list []) "/abs/f" (some "csv") cfgDefault envOk).1 =
      .ok "/abs/f.csv" :=
  ⟨rfl, rfl⟩

/- ### Claim C5 -/

/-- C5: the effective format is the first match of explicit argument,
then filename extension, then configured default; with filename `x.yaml`
and explicit format `json` the JSON codec runs and the resulting path ends
in `x.yaml.json`. -/
theorem c5_format_resolution_precedence :
    (∀ (f fn : String) (cfg : ExportConfig), resolveFormat (some f) fn cfg = f)
    ∧ (∀ (fn : String) (cfg : ExportConfig), (splitext fn).2 ≠ "" →
        resolveFormat none fn cfg = pyLstripDots (pyLower (splitext fn).2))
    ∧ (∀ (fn : String) (cfg : ExportConfig), (splitext fn).2 = "" →
        resolveFormat none fn cfg = cfg.default_format)
    ∧ (∀ v : Value, (export_data v "x.yaml" (some "json") cfgDefault envOk).1 =
          .ok "/cwd/output/x.yaml.json"
        ∧ pyEndsWith "/cwd/output/x.yaml.json" "x.yaml.json" = true) := by
  refine ⟨fun f fn cfg => rfl, ?_, ?_, fun v => ⟨?_, by decide⟩⟩
  · intro fn cfg h
    unfold resolveFormat
    rw [if_pos h]
  · intro fn cfg h
    unfold resolveFormat
    rw [if_neg (by simp [h])]
  · rfl

theorem c5_format_resolution_precedence_witness :
    resolveFormat none "x.yaml" cfgDefault = "yaml"
    ∧ resolveFormat none "out" cfgDefault = "json"
    ∧ (export_data (.int 7) "x.yaml" (some "json") cfgDefault envOk).1 =
        .ok "/cwd/output/x.yaml.json" := by
  refine ⟨?_, ?_, (c5_format_resolution_precedence.2.2.2 (.int 7)).1⟩
  · exact (c5_format_resolution_precedence.2.1 "x.yaml" cfgDefault (by decide)).trans (by decide)
  · exact (c5_format_resolution_precedence.2.2.1 "out" cfgDefault (by decide)).trans rfl

/- ### Claim C6 -/

theorem extFix_out_outjson (x : String) :
    extFix [".json"] ".json" (x ++ "out") = extFix [".json"] ".json" (x ++ "out.json") := by
  rw [extFix_json_out x]
  have hr : x ++ "out.json" = (x ++ "out") ++ ".json" := (strAppend_assoc x "out" ".json").symm
  rw [hr, extFix_keeps [".json"] ".json" ((x ++ "out") ++ ".json")
    (by simp [pyEndsWith_json_append])]

theorem joinPath_extFix_out (d : String) :
    extFix [".json"] ".json" (joinPath d "out") =
      extFix [".json"] ".json" (joinPath d "out.json") := by
  rw [show joinPath d "out" =
      (if d = "" then "out"
       else if pyEndsWith d "/" = true then d ++ "out" else d ++ "/" ++ "out") from rfl]
  rw [show joinPath d "out.json" =
      (if d = "" then "out.json"
       else if pyEndsWith d "/" = true then d ++ "out.json" else d ++ "/" ++ "out.json")
    from rfl]
  by_cases h1 : d = ""
  · rw [if_pos h1, if_pos h1]
    decide
  · rw [if_neg h1, if_neg h1]
    by_cases h2 : pyEndsWith d "/" = true
    · rw [if_pos h2, if_pos h2]
      exact extFix_out_outjson d
    · rw [if_neg h2, if_neg h2]
      exact extFix_out_outjson (d ++ "/")

theorem export_to_json_congr (v : Value) (a b : String) (pretty : Bool) (env : Env)
    (h : extFix [".json"] ".json" a = extFix [".json"] ".json" b) :
    export_to_json v a pretty env = export_to_json v b pretty env := by
  unfold export_to_json
  rw [h]

theorem dispatchFormat_json (data : Value) (fn : String) (env : Env) :
    dispatchFormat data fn "json" env = export_to_json data fn true env := rfl

theorem export_data_json_out_eq (v : Value) (cfg : ExportConfig) (env : Env) :
    export_data v "out" (some "json") cfg env =
      export_data v "out.json" (some "json") cfg env := by
  by_cases hd : cfg.output_dir = ""
  · have hc1 : ¬ (cfg.output_dir ≠ "" ∧ ¬ isabs "out" = true) := fun hh => hh.1 hd
    have hc2 : ¬ (cfg.output_dir ≠ "" ∧ ¬ isabs "out.json" = true) := fun hh => hh.1 hd
    rw [export_data_nodir v "out" (some "json") cfg env hc1,
        export_data_nodir v "out.json" (some "json") cfg env hc2]
    rw [show resolveFormat (some "json") "out" cfg = "json" from rfl,
        show resolveFormat (some "json") "out.json" cfg = "json" from rfl]
    rw [dispatchFormat_json v "out" env, dispatchFormat_json v "out.json" env]
    rw [export_to_json_congr v "out" "out.json" true env (by decide)]
  · have hc1 : cfg.output_dir ≠ "" ∧ ¬ isabs "out" = true := ⟨hd, by decide⟩
    have hc2 : cfg.output_dir ≠ "" ∧ ¬ isabs "out.json" = true := ⟨hd, by decide⟩
    cases hmk : env.mkdirError cfg.output_dir with
    | some e =>
      rw [export_data_mkdir_fail v "out" (some "json") cfg env e hc1 hmk,
          export_data_mkdir_fail v "out.json" (some "json") cfg env e hc2 hmk]
    | none =>
      rw [export_data_dir v "out" (some "json") cfg env hc1 hmk,
          export_data_dir v "out.json" (some "json") cfg env hc2 hmk]
      rw [show resolveFormat (some "json") "out" cfg = "json" from rfl,
          show resolveFormat (some "json") "out.json" cfg = "json" from rfl]
      rw [dispatchFormat_json v (joinPath cfg.output_dir "out") env,
          dispatchFormat_json v (joinPath cfg.output_dir "out.json") env]
      rw [export_to_json_congr v (joinPath cfg.output_dir "out")
          (joinPath cfg.output_dir "out.json") true env (joinPath_extFix_out cfg.output_dir)]

/-- C6: output-path extension handling is idempotent — for every value,
configuration and environment, exporting to `out` and to `out.json` with
format `json` are the same call (identical result and effects); a filename
already ending in the canonical extension (case-insensitively) is kept
unchanged, the fixup is idempotent, and both concrete calls resolve to the
same final path `out.json` in the output directory. -/
theorem c6_idempotent_extension :
    (∀ (v : Value) (cfg : ExportConfig) (env : Env),
      export_data v "out" (some "json") cfg env =
        export_data v "out.json" (some "json") cfg env)
    ∧ (∀ fn : String, pyEndsWith (pyLower fn) ".json" = true →
        extFix [".json"] ".json" fn = fn)
    ∧ (∀ fn : String,
        extFix [".json"] ".json" (extFix [".json"] ".json" fn) =
          extFix [".json"] ".json" fn)
    ∧ (∀ v : Value,
        (export_data v "out" (some "json") cfgDefault envOk).1 = .ok "/cwd/output/out.json"
        ∧ (export_data v "out.json" (some "json") cfgDefault envOk).1 =
            .ok "/cwd/output/out.json") := by
  refine ⟨export_data_json_out_eq, ?_, extFix_json_idem, fun v => ⟨rfl, rfl⟩⟩
  intro fn h
  exact extFix_keeps [".json"] ".json" fn (by simp [h])

theorem c6_idempotent_extension_witness :
    extFix [".json"] ".json" "report.JSON" = "report.JSON"
    ∧ export_data (.int 1) "out" (some "json") cfgDefault envOk =
        export_data (.int 1) "out.json" (some "json") cfgDefault envOk
    ∧ (export_data (.int 1) "out" (some "json") cfgDefault envOk).1 =
        .ok "/cwd/output/out.json" :=
  ⟨c6_idempotent_extension.2.1 "report.JSON" (by decide),
   c6_idempotent_extension.1 (.int 1) cfgDefault envOk,
   (c6_idempotent_extension.2.2.2 (.int 1)).1⟩
